import Mathlib

/-!
Verification of the Mira assistant's intent/temporal-parsing core.

This file gives a shallow embedding, in Lean, of the pure logic of
`mira_assistant/core/parser_tr.py`, `intent.py`, `llm_intent.py` and the
duplicate guard of `actions.py`, together with theorems settling the frozen
claims about that code.  Python strings are modelled as `List Char`; Python
`datetime` values as the `PyDateTime` structure below; the external
`dateparser` library and the remote LLM transport are modelled as explicit
oracle parameters, since they are third-party code the repository only calls.
-/

namespace Mira

/-- The apostrophe character (U+0027), used by the Turkish-suffix normaliser. -/
def apos : Char := Char.ofNat 39

/-- Python whitespace for `\s`, `str.strip()` and `str.split()` (ASCII part). -/
def pyIsSpace (c : Char) : Bool :=
  c = ' ' || c = '\t' || c = '\n' || c = '\x0d' || c = '\x0b' || c = '\x0c'

/-- ASCII decimal digit, Python regex `\d` on the inputs in scope. -/
def isDigitCh (c : Char) : Bool := '0' ≤ c && c ≤ '9'

/-- Lower-case Turkish special letters appearing in the source's patterns. -/
def turkishLower : List Char := ['ç', 'ğ', 'ı', 'ö', 'ş', 'ü']

/-- Upper-case Turkish special letters appearing in the source's patterns. -/
def turkishUpper : List Char := ['Ç', 'Ğ', 'İ', 'Ö', 'Ş', 'Ü', 'I']

/-- Python `str.lower` restricted to the ASCII and Turkish repertoire the
repository's patterns and our concrete inputs use. -/
def pyLowerCh (c : Char) : Char :=
  if 'A' ≤ c && c ≤ 'Z' then Char.ofNat (c.toNat + 32)
  else if c = 'Ç' then 'ç'
  else if c = 'Ğ' then 'ğ'
  else if c = 'Ö' then 'ö'
  else if c = 'Ş' then 'ş'
  else if c = 'Ü' then 'ü'
  else c

/-- Python `str.upper` on the same repertoire (used by `str.capitalize`). -/
def pyUpperCh (c : Char) : Char :=
  if 'a' ≤ c && c ≤ 'z' then Char.ofNat (c.toNat - 32)
  else if c = 'ç' then 'Ç'
  else if c = 'ğ' then 'Ğ'
  else if c = 'ö' then 'Ö'
  else if c = 'ş' then 'Ş'
  else if c = 'ü' then 'Ü'
  else c

/-- Text is a list of characters. -/
abbrev Text := List Char

/-- Lower-case a whole string (Python `str.lower` / `str.casefold`; the two
agree on the repertoire in scope). -/
def pyLower (s : Text) : Text := s.map pyLowerCh

/-- Word character for Python's `\b` boundary: `\w`, i.e. alphanumerics,
underscore, and the Turkish letters of the repertoire in scope. -/
def isWordCh (c : Char) : Bool :=
  c.isAlphanum || c = '_' || turkishLower.contains c || turkishUpper.contains c

/-- Does `pat` occur at the very start of `s`? -/
def leadsWith (pat s : Text) : Bool :=
  List.isPrefixOf pat s

/-- Python's `pat in s` substring test. -/
def hasSub (pat : Text) : Text → Bool
  | [] => leadsWith pat []
  | c :: rest => leadsWith pat (c :: rest) || hasSub pat rest

/-- Python `str.strip()`: drop leading and trailing whitespace. -/
def pyStrip (s : Text) : Text :=
  ((s.dropWhile pyIsSpace).reverse.dropWhile pyIsSpace).reverse

/-- Helper of `pySplit`: accumulate the current word (reversed) while
splitting on whitespace runs. -/
def pySplitAux : Text → Text → List Text
  | cur, [] => if cur = [] then [] else [cur.reverse]
  | cur, c :: rest =>
      if pyIsSpace c then
        if cur = [] then pySplitAux [] rest else cur.reverse :: pySplitAux [] rest
      else pySplitAux (c :: cur) rest

/-- Python `str.split()` with no argument: whitespace-separated words. -/
def pySplit (s : Text) : List Text := pySplitAux [] s

/-- Join a list of words with single spaces (Python `" ".join`). -/
def joinSpace : List Text → Text
  | [] => []
  | [w] => w
  | w :: ws => w ++ ' ' :: joinSpace ws

/-- Python `str.capitalize()`: first character upper-cased, rest lowered. -/
def pyCapitalize : Text → Text
  | [] => []
  | c :: rest => pyUpperCh c :: rest.map pyLowerCh

/-- Digit value of an ASCII digit character. -/
def digitVal (c : Char) : Nat := c.toNat - '0'.toNat

/-- Character for a digit below ten. -/
def digitCh (n : Nat) : Char := Char.ofNat ('0'.toNat + n)

/-- Numeric value of a digit string (Python `int` on a run of digits). -/
def digitsToNat (s : Text) : Nat := s.foldl (fun a c => 10 * a + digitVal c) 0

/-- Take the maximal leading run of decimal digits. -/
def takeDigits (s : Text) : Text := s.takeWhile isDigitCh

/-- Fueled decimal rendering of a natural number (fuel `n + 1` suffices). -/
def natDecAux : Nat → Nat → Text
  | 0, _ => []
  | fuel + 1, n => if n < 10 then [digitCh n] else natDecAux fuel (n / 10) ++ [digitCh (n % 10)]

/-- Decimal rendering of a natural number (Python `str` on a non-negative int). -/
def natDec (n : Nat) : Text := natDecAux (n + 1) n

/-- Decimal rendering of an integer (Python `str` on an int). -/
def intDec (n : Int) : Text :=
  if n < 0 then '-' :: natDec n.natAbs else natDec n.natAbs

/-- Two-digit zero-padded rendering (for ISO formatting). -/
def pad2 (n : Nat) : Text := [digitCh (n / 10 % 10), digitCh (n % 10)]

/-- Four-digit zero-padded rendering (for ISO formatting). -/
def pad4 (n : Nat) : Text :=
  [digitCh (n / 1000 % 10), digitCh (n / 100 % 10), digitCh (n / 10 % 10), digitCh (n % 10)]

/-- Gregorian leap-year test. -/
def isLeap (y : Int) : Bool := y % 4 = 0 && (y % 100 ≠ 0 || y % 400 = 0)

/-- Number of days in a month of a given year (as Python's `calendar`). -/
def daysInMonth (y : Int) (m : Nat) : Nat :=
  if m = 1 then 31 else if m = 2 then (if isLeap y then 29 else 28)
  else if m = 3 then 31 else if m = 4 then 30 else if m = 5 then 31
  else if m = 6 then 30 else if m = 7 then 31 else if m = 8 then 31
  else if m = 9 then 30 else if m = 10 then 31 else if m = 11 then 30
  else if m = 12 then 31 else 0

/-- Model of Python `datetime.datetime`: calendar fields plus an optional
fixed UTC offset in minutes (`none` models a naive datetime). -/
structure PyDateTime where
  year : Int
  month : Nat
  day : Nat
  hour : Nat
  minute : Nat
  second : Nat
  micro : Nat
  tz : Option Int
  deriving DecidableEq, Repr

/-- Offset, in minutes, of the configured zone `Europe/Istanbul` (UTC+3,
fixed since 2016; all instants in scope are after that). -/
def istOffset : Int := 180

/-- Days from the civil epoch 1970-01-01 (Howard Hinnant's algorithm). -/
def daysFromCivil (y : Int) (m d : Nat) : Int :=
  let y' : Int := if m ≤ 2 then y - 1 else y
  let era : Int := (if y' ≥ 0 then y' else y' - 399).fdiv 400
  let yoe : Int := y' - era * 400
  let mp : Int := (Int.ofNat m + 9) % 12
  let doy : Int := (153 * mp + 2).fdiv 5 + Int.ofNat d - 1
  let doe : Int := yoe * 365 + yoe.fdiv 4 - yoe.fdiv 100 + doy
  era * 146097 + doe - 719468

/-- Civil date from days since 1970-01-01 (inverse of `daysFromCivil`). -/
def civilFromDays (z : Int) : Int × Nat × Nat :=
  let z' := z + 719468
  let era : Int := (if z' ≥ 0 then z' else z' - 146096).fdiv 146097
  let doe : Int := z' - era * 146097
  let yoe : Int := (doe - doe.fdiv 1460 + doe.fdiv 36524 - doe.fdiv 146096).fdiv 365
  let y : Int := yoe + era * 400
  let doy : Int := doe - (365 * yoe + yoe.fdiv 4 - yoe.fdiv 100)
  let mp : Int := (5 * doy + 2).fdiv 153
  let d : Int := doy - (153 * mp + 2).fdiv 5 + 1
  let m : Int := if mp < 10 then mp + 3 else mp - 9
  (if m ≤ 2 then y + 1 else y, m.toNat, d.toNat)

/-- Seconds since the epoch of a datetime's wall-clock fields interpreted at
offset `off` minutes. -/
def wallSecs (d : PyDateTime) : Int :=
  daysFromCivil d.year d.month d.day * 86400
    + Int.ofNat (d.hour * 3600 + d.minute * 60 + d.second)

/-- Instant (seconds since epoch) of an aware datetime; a naive value is read
at the given fallback offset. -/
def instantAt (fallback : Int) (d : PyDateTime) : Int :=
  wallSecs d - (d.tz.getD fallback) * 60

/-- Instant of a datetime that is known (or assumed) aware, naive read as UTC. -/
def instant (d : PyDateTime) : Int := instantAt 0 d

/-- Rebuild calendar fields from an instant at a given offset (the field part
of Python `astimezone`); microseconds are preserved separately. -/
def fromInstant (secs : Int) (off : Int) (micro : Nat) : PyDateTime :=
  let local_ := secs + off * 60
  let days := local_.fdiv 86400
  let rem := (local_ - days * 86400).toNat
  let ymd := civilFromDays days
  { year := ymd.1, month := ymd.2.1, day := ymd.2.2,
    hour := rem / 3600, minute := rem % 3600 / 60, second := rem % 60,
    micro := micro, tz := some off }

/-- Python `value.astimezone(dt.timezone.utc)` on an aware value; a naive
value is first read at offset `fallback` (not used by the sources on naive
input, present to keep the model total). -/
def astimezoneUtc (d : PyDateTime) : PyDateTime :=
  fromInstant (instant d) 0 d.micro

/-! ## parser_tr.py: the text normaliser -/

/-- Letter class of `_APOSTROPHE_PATTERN`, the character set `[a-zçğıöşü]`
under `re.IGNORECASE`. -/
def aposLetter (c : Char) : Bool :=
  ('a' ≤ c && c ≤ 'z') || ('A' ≤ c && c ≤ 'Z')
    || turkishLower.contains c || turkishUpper.contains c

/-- Helper of `aposSub`, carrying the previous original character. -/
def aposSubAux : Option Char → Text → Text
  | _, [] => []
  | prev, c :: rest =>
      if c = apos
          && (match prev with | some p => isDigitCh p | none => false)
          && (match rest with | r :: _ => aposLetter r | [] => false)
      then ' ' :: aposSubAux (some c) rest
      else c :: aposSubAux (some c) rest

/-- The substitution `_APOSTROPHE_PATTERN.sub(r"\1 \2", text)`: the leftmost
non-overlapping replacement of `(\d+)'([a-zçğıöşü]+)` by the two groups
joined with a space.  Each replacement rewrites exactly the apostrophes
standing between a digit and a letter of the class, leaving every other
character unchanged, so the substitution is computed character-wise against
the original neighbours. -/
def aposSub (s : Text) : Text := aposSubAux none s

/-- Helper of `collapseWs`: `prevSpace` records whether the previous
character belonged to a whitespace run whose single space was already
emitted. -/
def collapseAux (prevSpace : Bool) : Text → Text
  | [] => []
  | c :: rest =>
      if pyIsSpace c then
        if prevSpace then collapseAux true rest else ' ' :: collapseAux true rest
      else c :: collapseAux false rest

/-- Collapse of every whitespace run to one space: `re.sub(r"\s+", " ", t)`. -/
def collapseWs (s : Text) : Text := collapseAux false s

/-- The source's `_normalise_text`: apostrophe-suffix substitution, then every
remaining apostrophe becomes a space, then whitespace is collapsed and the
ends are stripped. -/
def normaliseText (s : Text) : Text :=
  pyStrip (collapseWs ((aposSub s).map (fun c => if c = apos then ' ' else c)))

/-! ## parser_tr.py: the explicit-time pattern `_TIME_PATTERN` -/

/-- Separator class `[:. ]` of the digit-pair time alternative. -/
def isTimeSep (c : Char) : Bool := c = ':' || c = '.' || c = ' '

/-- First alternative `\d{1,2}[:. ]\d{2}` anchored at the head of `s`;
returns the match length.  The greedy `\d{1,2}` tries two digits first. -/
def alt1At (s : Text) : Option Nat :=
  match s with
  | a :: b :: c :: d :: e :: _ =>
      if isDigitCh a && isDigitCh b && isTimeSep c && isDigitCh d && isDigitCh e then some 5
      else if isDigitCh a && isTimeSep b && isDigitCh c && isDigitCh d then some 4
      else none
  | [a, b, c, d] =>
      if isDigitCh a && isTimeSep b && isDigitCh c && isDigitCh d then some 4 else none
  | _ => none

/-- Consume a literal case-insensitively (for `re.IGNORECASE` literals). -/
def stripCI : Text → Text → Option Text
  | [], s => some s
  | _, [] => none
  | l :: ls, c :: cs => if pyLowerCh c = l then stripCI ls cs else none

/-- One of the dative words `da|de|te` at the head, with a trailing `\b`;
returns the remaining text. -/
def dativeWord (s : Text) : Option Text :=
  match s with
  | a :: b :: rest =>
      if ((pyLowerCh a = 'd' && (pyLowerCh b = 'a' || pyLowerCh b = 'e'))
            || (pyLowerCh a = 't' && pyLowerCh b = 'e'))
          && (match rest with | r :: _ => !isWordCh r | [] => true)
      then some rest else none
  | _ => none

/-- The optional suffix `(?:\s*(?:da|de|te)\b)?` of the `saat` alternative:
number of characters it consumes (zero when absent). -/
def dative0 (s : Text) : Nat :=
  match dativeWord (s.dropWhile pyIsSpace) with
  | some _ => (s.takeWhile pyIsSpace).length + 2
  | none => 0

/-- The mandatory suffix `\s+(?:da|de|te)\b` of the bare-hour alternative:
number of characters consumed, if it matches. -/
def dative1 (s : Text) : Option Nat :=
  match s with
  | c :: rest =>
      if pyIsSpace c then
        match dativeWord (rest.dropWhile pyIsSpace) with
        | some _ => some (1 + (rest.takeWhile pyIsSpace).length + 2)
        | none => none
      else none
  | [] => none

/-- Greedy `\d{1,2}`: value and remaining text. -/
def grab12 (s : Text) : Option (Nat × Text) :=
  match s with
  | a :: b :: rest =>
      if isDigitCh a && isDigitCh b then some (10 * digitVal a + digitVal b, rest)
      else if isDigitCh a then some (digitVal a, b :: rest)
      else none
  | [a] => if isDigitCh a then some (digitVal a, []) else none
  | [] => none

/-- Second alternative `saat\s+\d{1,2}(?:\s*(?:da|de|te)\b)?` at the head:
match length and the hour digits' value. -/
def alt2At (s : Text) : Option (Nat × Nat) :=
  match stripCI ['s', 'a', 'a', 't'] s with
  | none => none
  | some r1 =>
      match r1 with
      | c :: r2 =>
          if pyIsSpace c then
            let ws := (r2.takeWhile pyIsSpace).length
            let r3 := r2.dropWhile pyIsSpace
            match grab12 r3 with
            | some (h, r4) => some (5 + ws + (r3.length - r4.length) + dative0 r4, h)
            | none => none
          else none
      | [] => none

/-- Third alternative `\d{1,2}\s+(?:da|de|te)\b` at the head: match length
and the hour digits' value.  Backtracking the greedy digits from two to one
places a digit where `\s+` is required, so it never helps. -/
def alt3At (s : Text) : Option (Nat × Nat) :=
  match s with
  | a :: b :: rest =>
      if isDigitCh a && isDigitCh b then
        match dative1 rest with
        | some n => some (2 + n, 10 * digitVal a + digitVal b)
        | none => none
      else if isDigitCh a then
        match dative1 (b :: rest) with
        | some n => some (1 + n, digitVal a)
        | none => none
      else none
  | _ => none

/-- Try the three alternatives of `_TIME_PATTERN` at one position, in the
pattern's order: match length, and the hour value that the source later
re-derives by `re.fullmatch` on the matched text (`none` for the digit-pair
alternative, whose text matches neither fullmatch pattern). -/
def timeAt (s : Text) : Option (Nat × Option Nat) :=
  match alt1At s with
  | some n => some (n, none)
  | none =>
      match alt2At s with
      | some (n, h) => some (n, some h)
      | none =>
          match alt3At s with
          | some (n, h) => some (n, some h)
          | none => none

/-- A match of `_TIME_PATTERN` split as text before, matched text, raw hour
(as re-derived by the source's fullmatch calls) and text after. -/
structure TimeMatch where
  before : Text
  matched : Text
  hourRaw : Option Nat
  after : Text
  deriving DecidableEq, Repr

/-- Helper of `timeSearch`: scan positions left to right, accumulating the
passed characters in reverse. -/
def timeSearchAux (acc : Text) : Text → Option TimeMatch
  | [] => none
  | c :: rest =>
      match timeAt (c :: rest) with
      | some (n, h) =>
          some { before := acc.reverse, matched := (c :: rest).take n,
                 hourRaw := h, after := (c :: rest).drop n }
      | none => timeSearchAux (c :: acc) rest

/-- Leftmost match of `_TIME_PATTERN.search`. -/
def timeSearch (s : Text) : Option TimeMatch := timeSearchAux [] s

/-! ## parser_tr.py: day-ordinal suffix pattern `_DAY_SUFFIX_PATTERN` -/

/-- A literal matches here case-insensitively, followed by a `\b` boundary. -/
def litAtB (lit s : Text) : Bool :=
  match stripCI lit s with
  | some r => match r with | x :: _ => !isWordCh x | [] => true
  | none => false

/-- One of the ordinal suffix words `si|sı|inci|ıncı|uncu|üncü|ncı|nci` at the
head of `s`, with its trailing `\b`. -/
def suffixWordHere (s : Text) : Bool :=
  litAtB "si".data s || litAtB "sı".data s || litAtB "inci".data s
    || litAtB "ıncı".data s || litAtB "uncu".data s || litAtB "üncü".data s
    || litAtB "ncı".data s || litAtB "nci".data s

/-- The pattern `(\d{1,2})\s*(?:si|sı|...)\b` anchored at the head: captured
day number.  Backtracking the greedy digits never helps, since the suffix
words do not start with a digit. -/
def daySuffixAt (s : Text) : Option Nat :=
  match s with
  | a :: b :: rest =>
      if isDigitCh a && isDigitCh b then
        if suffixWordHere (rest.dropWhile pyIsSpace) then
          some (10 * digitVal a + digitVal b)
        else none
      else if isDigitCh a then
        if suffixWordHere ((b :: rest).dropWhile pyIsSpace) then some (digitVal a) else none
      else none
  | _ => none

/-- Helper of `daySuffixSearch`: the leading `\b` requires the previous
character (if any) to be a non-word character. -/
def daySuffixSearchAux (prev : Option Char) : Text → Option Nat
  | [] => none
  | c :: rest =>
      if (match prev with | some p => !isWordCh p | none => true) then
        match daySuffixAt (c :: rest) with
        | some n => some n
        | none => daySuffixSearchAux (some c) rest
      else daySuffixSearchAux (some c) rest

/-- Leftmost match of `_DAY_SUFFIX_PATTERN.search`: the captured number. -/
def daySuffixSearch (s : Text) : Option Nat := daySuffixSearchAux none s

/-! ## parser_tr.py: explicit-date signals of a searched fragment -/

/-- Separator class `[/.-]` of `_DATE_NUMERIC_PATTERN`. -/
def dateSep (c : Char) : Bool := c = '/' || c = '.' || c = '-'

/-- The pattern `\b\d{1,2}\s*[/.-]\s*\d{1,2}\b` anchored at the head (the
leading `\b` is checked by the caller). -/
def dateNumAt (s : Text) : Bool :=
  let d := takeDigits s
  if d.length = 0 || d.length > 2 then false
  else
    match (s.drop d.length).dropWhile pyIsSpace with
    | c :: r2 =>
        if dateSep c then
          let r3 := r2.dropWhile pyIsSpace
          let e := takeDigits r3
          (e.length = 1 || e.length = 2)
            && (match r3.drop e.length with | x :: _ => !isWordCh x | [] => true)
        else false
    | [] => false

/-- Helper of `hasDateNumeric`. -/
def dateNumSearchAux (prev : Option Char) : Text → Bool
  | [] => false
  | c :: rest =>
      ((match prev with | some p => !isWordCh p | none => true) && dateNumAt (c :: rest))
        || dateNumSearchAux (some c) rest

/-- Existence of a `_DATE_NUMERIC_PATTERN` match anywhere in the text. -/
def hasDateNumeric (s : Text) : Bool := dateNumSearchAux none s

/-- The relative-date keyword set `_DATE_KEYWORDS`. -/
def dateKeywords : List Text :=
  ["yarın".data, "yarinki".data, "bugün".data, "bugun".data, "dün".data,
   "haftaya".data, "sonraki".data, "gelecek".data, "önümüzdeki".data,
   "önümüzde".data, "ertesi".data]

/-- The day-name set `_DAY_NAMES`. -/
def dayNames : List Text :=
  ["pazartesi".data, "salı".data, "sali".data, "çarşamba".data, "carsamba".data,
   "perşembe".data, "persembe".data, "cuma".data, "cumartesi".data, "pazar".data]

/-- The month-name set `_MONTH_NAMES`. -/
def monthNames : List Text :=
  ["ocak".data, "şubat".data, "subat".data, "mart".data, "nisan".data,
   "mayıs".data, "mayis".data, "haziran".data, "temmuz".data, "ağustos".data,
   "agustos".data, "eylül".data, "eylul".data, "ekim".data, "kasım".data,
   "kasim".data, "aralık".data, "aralik".data]

/-- The source's `_match_contains_explicit_date`. -/
def matchHasExplicitDate (fragment : Text) : Bool :=
  let lowered := pyLower fragment
  hasDateNumeric lowered
    || dateKeywords.any (fun k => hasSub k lowered)
    || dayNames.any (fun k => hasSub k lowered)
    || monthNames.any (fun k => hasSub k lowered)

/-- The period-hint words `_PERIOD_HINTS` (all map to the evening hint). -/
def periodHintWords : List Text :=
  ["akşam".data, "aksam".data, "akşamüstü".data, "aksamustu".data]

/-- The source's `_detect_period_hint` on the lowered text before the time
match: scan the last three words, last first; `true` means the evening hint
(the only value in the table). -/
def detectPeriodHint (before : Text) : Bool :=
  let words := pySplit before
  ((words.drop (words.length - 3)).reverse).any (fun w => periodHintWords.contains w)

/-! ## parser_tr.py: `parse_datetime` -/

/-- Oracle for the third-party `dateparser` library as configured by the
source (Turkish, DMY order, future preference, the call's settings and
relative base): `parse` models `dateparser.parse` on a candidate string and
`search` models `dateparser.search.search_dates`.  The claims quantify over
this oracle; the repository only transforms its output. -/
structure DpOracle where
  parse : Text → Option PyDateTime
  search : Text → List (Text × PyDateTime)

/-- The candidate list built by `parse_datetime`: the normalised text, then
(when a time match exists) the stripped text before the match, the stripped
concatenation with the match removed, and the stripped text after, each
appended only when non-empty and not already present. -/
def dateCandidates (normalised : Text) (tm : Option TimeMatch) : List Text :=
  let base := if normalised = [] then [] else [normalised]
  match tm with
  | none => base
  | some t =>
      let pre := pyStrip t.before
      let post := pyStrip t.after
      let stripped := pyStrip (pre ++ ' ' :: post)
      [pre, stripped, post].foldl
        (fun acc c => if c = [] || acc.contains c then acc else acc ++ [c]) base

/-- First candidate on which `dateparser.parse` succeeds. -/
def firstParse (o : DpOracle) : List Text → Option PyDateTime
  | [] => none
  | c :: rest =>
      match o.parse c with
      | some d => some d
      | none => firstParse o rest

/-- First candidate on which `search_dates` returns matches, with the first
match's fragment text and parsed value. -/
def firstSearch (o : DpOracle) : List Text → Option (Text × PyDateTime)
  | [] => none
  | c :: rest =>
      match o.search c with
      | (f, d) :: _ => some (f, d)
      | [] => firstSearch o rest

/-- Outcome of the direct-parse loop and the `search_dates` fallback. -/
inductive BaseResolved where
  | direct (d : PyDateTime)
  | fromSearch (fragment : Text) (d : PyDateTime)
  deriving DecidableEq, Repr

/-- Steps 5 and 6 of the extractor: direct parse over the candidates, then
the substring-search fallback. -/
def resolveBase (o : DpOracle) (cands : List Text) : Option BaseResolved :=
  match firstParse o cands with
  | some d => some (.direct d)
  | none =>
      match firstSearch o cands with
      | some (f, d) => some (.fromSearch f d)
      | none => none

/-- The date-reset applied to a search-found value whose fragment carries no
explicit date signal: year, month and day are forced to the reference's. -/
def applyReset (eff : PyDateTime) : BaseResolved → PyDateTime
  | .direct d => d
  | .fromSearch f d =>
      if matchHasExplicitDate f then d
      else { d with year := eff.year, month := eff.month, day := eff.day }

/-- The day-ordinal override `parsed.replace(day=n)`, skipped when the
replacement would raise `ValueError` (day invalid for the value's month). -/
def applyDaySuffix (suffix? : Option Nat) (d : PyDateTime) : PyDateTime :=
  match suffix? with
  | some n => if 1 ≤ n && n ≤ daysInMonth d.year d.month then { d with day := n } else d
  | none => d

/-- The final hour step: an extracted hour wins; otherwise a caller-supplied
default hour applies only when the original text has no explicit time. -/
def applyHour (extracted : Option Nat) (dh : Option Nat) (dm : Nat) (hasTime : Bool)
    (d : PyDateTime) : PyDateTime :=
  match extracted with
  | some h => { d with hour := h, minute := dm, second := 0, micro := 0 }
  | none =>
      match dh with
      | some v =>
          if hasTime then d
          else { d with hour := v, minute := dm, second := 0, micro := 0 }
      | none => d

/-- Attach the configured zone when the value is naive. -/
def attachIst (d : PyDateTime) : PyDateTime :=
  match d.tz with
  | some _ => d
  | none => { d with tz := some istOffset }

/-- Range check `0 <= extracted_hour <= 23` applied to the fullmatch hour. -/
def extractedHourOf (tm : TimeMatch) : Option Nat :=
  match tm.hourRaw with
  | some h => if h ≤ 23 then some h else none
  | none => none

/-- The evening-period adjustment: add twelve when the hint is found in the
lowered text before the match and the extracted hour is below twelve. -/
def adjustEvening (tm : TimeMatch) (h? : Option Nat) : Option Nat :=
  match h? with
  | some h =>
      if detectPeriodHint (pyLower tm.before) && h < 12 then some (h + 12) else some h
  | none => none

/-- The source's `parse_datetime`.  `reference` is the caller's reference
instant (`nowLocal` models `dt.datetime.now(settings.timezone)` used when it
is absent); `_has_explicit_time(text)` recomputes the time search on the
normalised text, which is exactly `tm.isSome` here. -/
def parse_datetime (o : DpOracle) (text : Text) (reference : Option PyDateTime)
    (nowLocal : PyDateTime) (default_hour : Option Nat) (default_minute : Nat) :
    Option PyDateTime :=
  let normalised := normaliseText text
  let tm := timeSearch normalised
  let extracted :=
    match tm with
    | some t => adjustEvening t (extractedHourOf t)
    | none => none
  let cands := dateCandidates normalised tm
  let suffix? := daySuffixSearch normalised
  let eff := reference.getD nowLocal
  match resolveBase o cands with
  | none => none
  | some base =>
      let p1 := applyReset eff base
      let p2 := applyDaySuffix suffix? p1
      let p3 := applyHour extracted default_hour default_minute tm.isSome p2
      some (attachIst p3)

/-- The source's `to_utc`: attach the configured zone when naive, then
convert to UTC. -/
def to_utc (d : PyDateTime) : PyDateTime := astimezoneUtc (attachIst d)

/-! ## intent.py: the rule classifier -/

/-- Six-digit zero-padded rendering (ISO microseconds). -/
def pad6 (n : Nat) : Text :=
  [digitCh (n / 100000 % 10), digitCh (n / 10000 % 10), digitCh (n / 1000 % 10),
   digitCh (n / 100 % 10), digitCh (n / 10 % 10), digitCh (n % 10)]

/-- UTC-offset suffix of Python `datetime.isoformat` (for example `+03:00`). -/
def isoOffset (off : Int) : Text :=
  (if off < 0 then '-' else '+') :: pad2 (off.natAbs / 60) ++ ':' :: pad2 (off.natAbs % 60)

/-- Python `datetime.isoformat()`: microseconds appear only when non-zero,
the offset only on aware values.  Years in scope are four-digit positive. -/
def isoFormat (d : PyDateTime) : Text :=
  pad4 d.year.toNat ++ '-' :: pad2 d.month ++ '-' :: pad2 d.day
    ++ 'T' :: pad2 d.hour ++ ':' :: pad2 d.minute ++ ':' :: pad2 d.second
    ++ (if d.micro = 0 then [] else '.' :: pad6 d.micro)
    ++ (match d.tz with | some off => isoOffset off | none => [])

/-- Payload values carried by rule-built actions. -/
inductive PVal where
  | s (v : Text)
  | n (v : Int)
  | b (v : Bool)
  | remindPolicy (minutesBefore : List Int) (voice : Bool)
  deriving DecidableEq, Repr

/-- An ordered-key payload mapping. -/
abbrev Payload := List (String × PVal)

/-- The `Action` dataclass: an intent tag plus a payload. -/
structure Action where
  intent : String
  payload : Payload
  deriving DecidableEq, Repr

/-- The ordered `_EVENT_KEYWORDS` mapping (keyword, default hour). -/
def eventKeywords : List (Text × Nat) :=
  [("toplant".data, 10), ("görüş".data, 10), ("konferans".data, 10),
   ("etkinlik".data, 20), ("konser".data, 20), ("sunum".data, 10)]

/-- The `_TASK_KEYWORDS` list. -/
def taskKeywords : List Text :=
  ["yap".data, "görev".data, "task".data, "hatırla".data, "tamamla".data]

/-- The `_LIST_EVENTS_KEYWORDS` list. -/
def listEventsKeywords : List Text :=
  ["ajanda".data, "takvim".data, "etkinlikler".data, "bugün".data]

/-- The `_LIST_TASKS_KEYWORDS` list. -/
def listTasksKeywords : List Text :=
  ["görevleri".data, "yapılacak".data, "todo".data, "liste".data]

/-- The `_SUMMARY_KEYWORDS` list. -/
def summaryKeywords : List Text := ["özet".data, "toparla".data]

/-- The `_INGEST_NOUN_HINTS` set. -/
def ingestNounHints : List Text :=
  ["belge".data, "belgeleri".data, "dosya".data, "dosyaları".data,
   "dokuman".data, "doküman".data]

/-- The `_INGEST_VERB_HINTS` set. -/
def ingestVerbHints : List Text :=
  ["yükle".data, "ekle".data, "aktar".data, "arşivle".data]

/-- The `_ADVISE_KEYWORDS` list. -/
def adviseKeywords : List Text := ["öner".data, "uyarı".data, "kontrol".data]

/-- The `_REMINDER_KEYWORDS` list. -/
def reminderKeywords : List Text := ["hatırlat".data, "alarm".data]

/-- The `_UPDATE_KEYWORDS` list. -/
def updateKeywords : List Text := ["güncelle".data, "değiştir".data]

/-- The `_DELETE_KEYWORDS` list. -/
def deleteKeywords : List Text := ["sil".data, "iptal".data]

/-- The `_COMPLETE_KEYWORDS` list. -/
def completeKeywords : List Text := ["tamamla".data, "bitir".data, "kapattım".data]

/-- The `_ADD_HINTS` set. -/
def addHints : List Text := ["ekle".data, "oluştur".data, "kaydet".data]

/-- The title fallback `_TITLE_FALLBACK`. -/
def titleFallback : Text := "Mira Notu".data

/-- The source's `_contains_any`. -/
def containsAny (t : Text) (ks : List Text) : Bool := ks.any (fun k => hasSub k t)

/-- Upper-case class `[A-ZÇĞİÖŞÜ]` of the topic pattern. -/
def isTopicUpper (c : Char) : Bool := ('A' ≤ c && c ≤ 'Z') || turkishUpper.contains c

/-- Leftmost match of the topic pattern `([A-ZÇĞİÖŞÜ][\wçğıöşü]+)`: an
upper-case letter followed by at least one word character, greedily. -/
def topicSearch : Text → Option Text
  | [] => none
  | c :: rest =>
      if isTopicUpper c && (match rest with | r :: _ => isWordCh r | [] => false) then
        some (c :: rest.takeWhile isWordCh)
      else topicSearch rest

/-- The source's `_extract_topic`: prefer the first capitalized word, else
the last two whitespace-delimited tokens, else the text itself. -/
def extractTopic (text : Text) : Text :=
  match topicSearch text with
  | some t => t
  | none =>
      let words := pySplit text
      if words.length ≥ 2 then joinSpace (words.drop (words.length - 2)) else text

/-- The source's `_extract_number`: value of the first run of digits. -/
def extractNumber : Text → Option Nat
  | [] => none
  | c :: rest =>
      if isDigitCh c then some (digitsToNat (takeDigits (c :: rest)))
      else extractNumber rest

/-- The source's `_infer_title`: first six words, each capitalized. -/
def inferTitle (text : Text) : Text :=
  let stripped := pyStrip text
  if stripped = [] then titleFallback
  else joinSpace (((pySplit stripped).take 6).map pyCapitalize)

/-- The configured reminder offsets, `settings.default_reminders` default. -/
def defaultReminders : List Int := [1440, 60, 10]

/-- The configured zone name, `settings.timezone_name` default. -/
def timezoneName : Text := "Europe/Istanbul".data

/-- The source's `_build_event_action`. -/
def buildEventAction (o : DpOracle) (nowLocal : PyDateTime) (text : Text)
    (defaultHour : Nat) (parsed : Option PyDateTime) : Action :=
  let title := let t := inferTitle text; if t = [] then titleFallback else t
  let localDt :=
    match parsed with
    | some d => some d
    | none => parse_datetime o text none nowLocal (some defaultHour) 0
  { intent := "add_event",
    payload :=
      [("title", .s title)]
        ++ (match localDt with
            | some d => [("start", .s (isoFormat (to_utc d))), ("timezone", .s timezoneName)]
            | none => [])
        ++ [("remind_policy", .remindPolicy defaultReminders true)] }

/-- The source's `_build_task_action`. -/
def buildTaskAction (o : DpOracle) (nowLocal : PyDateTime) (text : Text) : Action :=
  let due := parse_datetime o text none nowLocal (some 17) 0
  { intent := "add_task",
    payload :=
      [("title", .s (let t := pyStrip text; if t = [] then titleFallback else t))]
        ++ (match due with
            | some d => [("due", .s (isoFormat (to_utc d)))]
            | none => []) }

/-- The source's `_build_reminder_action`. -/
def buildReminderAction (o : DpOracle) (nowLocal : PyDateTime) (text : Text) : Action :=
  let target := parse_datetime o text none nowLocal (some 9) 0
  { intent := "schedule_reminder",
    payload :=
      [("message", .s (pyStrip text))]
        ++ (match target with
            | some d => [("remind_at", .s (isoFormat (to_utc d)))]
            | none => []) }

/-- First matching event keyword's default hour (iteration order of the
`_EVENT_KEYWORDS` dict). -/
def lookupEventKeyword (lowered : Text) : Option Nat :=
  (eventKeywords.find? (fun kv => hasSub kv.1 lowered)).map (·.2)

/-- The decision list of `handle_with_rules` after the blank-input check:
every branch of the source returns an `Action`, so the classification is
factored here without the surrounding `Optional`. -/
def classifyRules (o : DpOracle) (nowLocal : PyDateTime) (text : Text) (lowered : Text) :
    Action :=
  match lookupEventKeyword lowered with
  | some hour => buildEventAction o nowLocal text hour none
  | none =>
      if containsAny lowered reminderKeywords then
        buildReminderAction o nowLocal text
      else if containsAny lowered listEventsKeywords then
        ⟨"list_events", [("range", .s "today".data)]⟩
      else if containsAny lowered ingestNounHints && containsAny lowered ingestVerbHints then
        ⟨"ingest_docs", [("topic", .s (extractTopic text))]⟩
      else if containsAny lowered summaryKeywords then
        ⟨"summarize_topic", [("topic", .s (extractTopic text))]⟩
      else if containsAny lowered adviseKeywords then
        ⟨"advise_on_topic", [("topic", .s (extractTopic text))]⟩
      else if containsAny lowered listTasksKeywords then
        ⟨"list_tasks", [("scope", .s "today".data)]⟩
      else if containsAny lowered addHints then
        match parse_datetime o text none nowLocal (some 18) 0 with
        | some d => buildEventAction o nowLocal text 18 (some d)
        | none => buildTaskAction o nowLocal text
      else if containsAny lowered updateKeywords then
        let n : Int := ((extractNumber lowered).getD 0 : Nat)
        if hasSub "etkin".data lowered || hasSub "toplant".data lowered then
          ⟨"update_event", [("event_id", .n n), ("text", .s text)]⟩
        else
          ⟨"update_task", [("task_id", .n n), ("text", .s text)]⟩
      else if containsAny lowered deleteKeywords then
        let n : Int := ((extractNumber lowered).getD 0 : Nat)
        if hasSub "etkin".data lowered || hasSub "toplant".data lowered then
          ⟨"delete_event", [("event_id", .n n)]⟩
        else
          ⟨"delete_task", [("task_id", .n n)]⟩
      else if containsAny lowered completeKeywords then
        ⟨"complete_task", [("task_id", .n ((extractNumber lowered).getD 0 : Nat))]⟩
      else if containsAny lowered taskKeywords then
        buildTaskAction o nowLocal text
      else
        ⟨"note", [("text", .s text)]⟩

/-- The source's `handle_with_rules`: `None` on blank input, else the first
matching category of the fixed decision list. -/
def handle_with_rules (o : DpOracle) (nowLocal : PyDateTime) (text : Text) : Option Action :=
  let lowered := pyStrip (pyLower text)
  if lowered = [] then none
  else some (classifyRules o nowLocal text lowered)

/-! ## llm_intent.py: the remote classifier adapter -/

/-- Transient transport failures of the OpenAI client that the adapter
re-raises: `APIConnectionError`, `RateLimitError`, `APIStatusError`. -/
inductive TransportErr where
  | connection
  | rateLimit
  | status
  deriving DecidableEq, Repr

/-- JSON values as decoded by `json.loads`. -/
inductive Json where
  | null
  | bool (b : Bool)
  | num (n : Int)
  | str (s : Text)
  | arr (xs : List Json)
  | obj (kvs : List (Text × Json))

/-- Python truthiness of a decoded JSON value. -/
def jsonTruthy : Json → Bool
  | .null => false
  | .bool b => b
  | .num n => !(n == 0)
  | .str s => !s.isEmpty
  | .arr xs => !xs.isEmpty
  | .obj kvs => !kvs.isEmpty

/-- Python `str()` on a decoded JSON value; the source only tests whether
the result is blank, and container renderings always carry a bracket. -/
def pyStrJson : Json → Text
  | .null => "None".data
  | .bool true => "True".data
  | .bool false => "False".data
  | .num n => intDec n
  | .str s => s
  | .arr _ => ['[', ']']
  | .obj _ => ['{', '}']

/-- Python `mapping.get(key)` on a JSON object's key list. -/
def jsonGet (kvs : List (Text × Json)) (k : Text) : Option Json :=
  (kvs.find? (fun kv => kv.1 = k)).map (·.2)

/-- Python `mapping.get(key) or fallbackIsUsed`: the field when present and
truthy. -/
def truthyField (kvs : List (Text × Json)) (k : Text) : Option Json :=
  match jsonGet kvs k with
  | some j => if jsonTruthy j then some j else none
  | none => none

/-- Failures crossing `handle_with_llm`: re-raised transport errors, the
`ValueError`s the adapter itself raises, and the `AttributeError` hit when
the decoded top-level JSON value is not a mapping (``payload.get`` then has
no target). -/
inductive LlmFailure where
  | transient (e : TransportErr)
  | malformed (reason : String)
  | attrError
  deriving DecidableEq, Repr

/-- An action as built by the adapter: intent plus the raw JSON payload. -/
structure LlmAction where
  intent : Text
  payload : List (Text × Json)

/-- The adapter's intent string: `str(payload.get("intent") or "").strip()`. -/
def llmIntentOf (kvs : List (Text × Json)) : Text :=
  pyStrip (pyStrJson ((truthyField kvs "intent".data).getD (.str [])))

/-- The adapter's inner payload: `payload.get("payload") or \x7b\x7d`. -/
def llmDataOf (kvs : List (Text × Json)) : Json :=
  (truthyField kvs "payload".data).getD (.obj [])

/-- The source's `handle_with_llm`.  `client` models the chat-completion
call: a transport error, or the (possibly absent/empty) message content;
`decode` models `json.loads`, `none` meaning a `JSONDecodeError`. -/
def handle_with_llm (decode : Text → Option Json)
    (client : Except TransportErr (Option Text)) (text : Text) :
    Except LlmFailure (Option LlmAction) :=
  if pyStrip text = [] then .ok none
  else
    match client with
    | .error e => .error (.transient e)
    | .ok content? =>
        let content := content?.getD []
        if content = [] then .error (.malformed "empty content")
        else
          match decode content with
          | none => .error (.malformed "not JSON")
          | some (Json.obj kvs) =>
              if llmIntentOf kvs = [] then .error (.malformed "no intent")
              else
                match llmDataOf kvs with
                | Json.obj dataKvs => .ok (some ⟨llmIntentOf kvs, dataKvs⟩)
                | _ => .error (.malformed "payload not a mapping")
          | some _ => .error .attrError

/-- Configuration gating the LLM path in `handle`. -/
structure LlmConfig where
  useLlm : Bool
  apiKey : Bool

/-- Result of the top-level `handle`, recording which classifier produced
the action (Python returns a plain `Action` either way). -/
inductive Handled where
  | fromLlm (a : LlmAction)
  | fromRules (a : Option Action)

/-- The source's `handle`: try the LLM path when enabled, fall back to the
rule classifier on any exception or on an absent LLM action. -/
def handle (cfg : LlmConfig) (decode : Text → Option Json)
    (client : Except TransportErr (Option Text)) (o : DpOracle)
    (nowLocal : PyDateTime) (text : Text) : Option Handled :=
  let stripped := pyStrip text
  if stripped = [] then none
  else if cfg.useLlm && cfg.apiKey then
    match handle_with_llm decode client stripped with
    | .ok (some a) => some (.fromLlm a)
    | .ok none => some (.fromRules (handle_with_rules o nowLocal stripped))
    | .error _ => some (.fromRules (handle_with_rules o nowLocal stripped))
  else some (.fromRules (handle_with_rules o nowLocal stripped))

/-! ## actions.py: `_parse_iso` and the relative-token substitution -/

/-- The opening brace character. -/
def lbrace : Char := Char.ofNat 123

/-- The closing brace character. -/
def rbrace : Char := Char.ofNat 125

/-- Payload values reaching the dispatcher: JSON-style scalars plus datetime
instances. -/
inductive PyVal where
  | null
  | b (v : Bool)
  | n (v : Int)
  | s (v : Text)
  | dt (v : PyDateTime)
  deriving DecidableEq, Repr

/-- Python truthiness of a dispatcher payload value. -/
def pyTruthy : PyVal → Bool
  | .null => false
  | .b v => v
  | .n v => !(v == 0)
  | .s v => !v.isEmpty
  | .dt _ => true

/-- Python `datetime.isoformat(sep)` with a chosen separator. -/
def isoFormatSep (sep : Char) (d : PyDateTime) : Text :=
  pad4 d.year.toNat ++ '-' :: pad2 d.month ++ '-' :: pad2 d.day
    ++ sep :: pad2 d.hour ++ ':' :: pad2 d.minute ++ ':' :: pad2 d.second
    ++ (if d.micro = 0 then [] else '.' :: pad6 d.micro)
    ++ (match d.tz with | some off => isoOffset off | none => [])

/-- Python `str()` on a dispatcher payload value. -/
def pyStrOf : PyVal → Text
  | .null => "None".data
  | .b true => "True".data
  | .b false => "False".data
  | .n v => intDec v
  | .s v => v
  | .dt v => isoFormatSep ' ' v

/-- One of the relative words `today|bugun|bugün|tomorrow|yarin|yarın` at the
head (case-insensitively): its length and day offset. -/
def relWordAt (s : Text) : Option (Nat × Nat) :=
  if (stripCI "today".data s).isSome then some (5, 0)
  else if (stripCI "bugun".data s).isSome then some (5, 0)
  else if (stripCI "bugün".data s).isSome then some (5, 0)
  else if (stripCI "tomorrow".data s).isSome then some (8, 1)
  else if (stripCI "yarin".data s).isSome then some (5, 1)
  else if (stripCI "yarın".data s).isSome then some (5, 1)
  else none

/-- A `RELATIVE_TOKEN_PATTERN` match anchored at the head: total length and
day offset. -/
def relTokenAt (s : Text) : Option (Nat × Nat) :=
  match s with
  | c :: rest =>
      if c = lbrace then
        let ws1 := (rest.takeWhile pyIsSpace).length
        let r1 := rest.dropWhile pyIsSpace
        match relWordAt r1 with
        | some (wl, off) =>
            let r2 := r1.drop wl
            let ws2 := (r2.takeWhile pyIsSpace).length
            match r2.dropWhile pyIsSpace with
            | d :: _ => if d = rbrace then some (1 + ws1 + wl + ws2 + 1, off) else none
            | [] => none
        | none => none
      else none
  | [] => none

/-- ISO rendering of a bare date (Python `date.isoformat`). -/
def isoDate (y : Int) (m d : Nat) : Text :=
  pad4 y.toNat ++ '-' :: pad2 m ++ '-' :: pad2 d

/-- Fueled helper of `relSub` (fuel bounds the scan; every replacement
consumes at least one character, so fuel `length` suffices). -/
def relSubAux (nowLocal : PyDateTime) : Nat → Text → Text
  | 0, s => s
  | _, [] => []
  | fuel + 1, c :: rest =>
      match relTokenAt (c :: rest) with
      | some (len, off) =>
          let d := civilFromDays (daysFromCivil nowLocal.year nowLocal.month nowLocal.day + off)
          isoDate d.1 d.2.1 d.2.2 ++ relSubAux nowLocal fuel ((c :: rest).drop len)
      | none => c :: relSubAux nowLocal fuel rest

/-- The source's `_normalise_relative_tokens`: replace recognised relative
placeholders with ISO dates computed from the current local date. -/
def relSub (nowLocal : PyDateTime) (s : Text) : Text := relSubAux nowLocal s.length s

/-- Date part `YYYY-MM-DD` of `datetime.fromisoformat`, with range checks. -/
def fromIsoDate (s : Text) : Option (Int × Nat × Nat × Text) :=
  match s with
  | a :: b :: c :: d :: s1 :: e :: f :: s2 :: g :: h :: rest =>
      if isDigitCh a && isDigitCh b && isDigitCh c && isDigitCh d
          && s1 = '-' && isDigitCh e && isDigitCh f
          && s2 = '-' && isDigitCh g && isDigitCh h then
        let y : Int := Int.ofNat (digitsToNat [a, b, c, d])
        let mo := 10 * digitVal e + digitVal f
        let da := 10 * digitVal g + digitVal h
        if 1 ≤ mo && mo ≤ 12 && 1 ≤ da && da ≤ daysInMonth y mo then some (y, mo, da, rest)
        else none
      else none
  | _ => none

/-- Fractional-second part: six (or three) digits after a dot, else zero. -/
def fromIsoMicro (s : Text) : Option (Nat × Text) :=
  match s with
  | '.' :: rest =>
      let ds := takeDigits rest
      if ds.length = 6 then some (digitsToNat ds, rest.drop 6)
      else if ds.length = 3 then some (digitsToNat ds * 1000, rest.drop 3)
      else none
  | s => some (0, s)

/-- Offset suffix `±HH:MM` (or nothing), consuming the rest of the string. -/
def fromIsoOffset (s : Text) : Option (Option Int) :=
  match s with
  | [] => some none
  | c :: rest =>
      if c = '+' || c = '-' then
        match rest with
        | [a, b, col, d, e] =>
            if isDigitCh a && isDigitCh b && col = ':' && isDigitCh d && isDigitCh e then
              let hh := 10 * digitVal a + digitVal b
              let mm := 10 * digitVal d + digitVal e
              if hh ≤ 23 && mm ≤ 59 then
                some (some ((if c = '-' then (-1 : Int) else 1) * (hh * 60 + mm : Nat)))
              else none
            else none
        | _ => none
      else none

/-- Time part `HH[:MM[:SS[.ffffff]]]` plus optional offset, consuming the
rest of the string. -/
def fromIsoTime (s : Text) : Option (Nat × Nat × Nat × Nat × Option Int) :=
  match s with
  | a :: b :: rest =>
      if isDigitCh a && isDigitCh b then
        let hh := 10 * digitVal a + digitVal b
        if hh ≤ 23 then
          match rest with
          | ':' :: c :: d :: rest2 =>
              if isDigitCh c && isDigitCh d then
                let mm := 10 * digitVal c + digitVal d
                if mm ≤ 59 then
                  match rest2 with
                  | ':' :: e :: f :: rest3 =>
                      if isDigitCh e && isDigitCh f then
                        let ss := 10 * digitVal e + digitVal f
                        if ss ≤ 59 then
                          match fromIsoMicro rest3 with
                          | some (mic, rest4) =>
                              match fromIsoOffset rest4 with
                              | some off => some (hh, mm, ss, mic, off)
                              | none => none
                          | none => none
                        else none
                      else none
                  | rest2 =>
                      match fromIsoOffset rest2 with
                      | some off => some (hh, mm, 0, 0, off)
                      | none => none
                else none
              else none
          | rest =>
              match fromIsoOffset rest with
              | some off => some (hh, 0, 0, 0, off)
              | none => none
        else none
      else none
  | _ => none

/-- Model of `datetime.fromisoformat`: the `YYYY-MM-DD[<sep>HH[:MM[:SS
[.ffffff]]]][±HH:MM]` grammar that the method accepts (the inverse of
`isoformat`, with any single separator character). -/
def fromIso (s : Text) : Option PyDateTime :=
  match fromIsoDate s with
  | none => none
  | some (y, mo, da, rest) =>
      match rest with
      | [] => some ⟨y, mo, da, 0, 0, 0, 0, none⟩
      | _sep :: timePart =>
          match fromIsoTime timePart with
          | some (hh, mm, ss, mic, off) => some ⟨y, mo, da, hh, mm, ss, mic, off⟩
          | none => none

/-- The source's `_parse_iso`.  `nowLocal` models the current local datetime
read by the relative-token substitution. -/
def parseIso (nowLocal : PyDateTime) (value : Option PyVal) : Option PyDateTime :=
  match value with
  | none => none
  | some v =>
      if !pyTruthy v then none
      else
        match v with
        | .dt d => some (if d.tz.isSome then d else { d with tz := some 0 })
        | _ =>
            let text := pyStrip (pyStrOf v)
            if text = [] then none
            else
              match fromIso (relSub nowLocal text) with
              | none => none
              | some parsed =>
                  some (if parsed.tz.isSome then parsed else { parsed with tz := some 0 })

/-! ## actions.py: the duplicate guard of the create handlers -/

/-- Task status enumeration. -/
inductive TaskStatusV where
  | todo
  | inProgress
  | done
  deriving DecidableEq, Repr

/-- A persisted event row, restricted to the columns the create handler
reads and writes for the guard (`id`, `title`, `start_dt`); the remaining
columns do not influence the modelled behaviour. -/
structure StoredEvent where
  id : Nat
  title : Text
  start? : Option PyDateTime
  deriving DecidableEq, Repr

/-- A persisted task row, restricted to the columns the create handler
reads and writes for the guard. -/
structure StoredTask where
  id : Nat
  title : Text
  due? : Option PyDateTime
  status : TaskStatusV
  deriving DecidableEq, Repr

/-- The persistent store: rows plus the next autoincrement identifier. -/
structure Store where
  events : List StoredEvent
  tasks : List StoredTask
  nextId : Nat
  deriving DecidableEq, Repr

/-- The storage layer's `_ensure_utc`: naive values get UTC attached, aware
values are converted to UTC. -/
def ensureUtc : Option PyDateTime → Option PyDateTime
  | none => none
  | some d => if d.tz.isSome then some (astimezoneUtc d) else some { d with tz := some 0 }

/-- A dispatcher payload. -/
abbrev DPayload := List (String × PyVal)

/-- Python `payload.get(key)`. -/
def getP (p : DPayload) (k : String) : Option PyVal :=
  (p.find? (fun kv => kv.1 = k)).map (·.2)

/-- Python `a or b or ...` over payload lookups: the first truthy value,
else the last value (whose falsiness the consumer re-checks). -/
def orChain : List (Option PyVal) → Option PyVal
  | [] => none
  | [v] => v
  | v :: rest =>
      match v with
      | some x => if pyTruthy x then some x else orChain rest
      | none => orChain rest

/-- Result of `handle_add_event`: returned identifier and duplicate flag,
whether reminder scheduling ran, and the store after the call. -/
structure AddEventResult where
  eventId : Nat
  duplicate : Bool
  scheduled : Bool
  store : Store
  deriving DecidableEq, Repr

/-- Title match of the event guard: stripped, case-folded equality. -/
def titleKeyEq (t : Text) (key : Text) : Bool := pyLower (pyStrip t) = key

/-- Temporal closeness of the duplicate guard: both absent, or both present
with an absolute difference under one hour. -/
def timeClose : Option PyDateTime → Option PyDateTime → Bool
  | none, none => true
  | some s, some es => (instant es - instant s).natAbs < 3600
  | _, _ => false

/-- The start value of a create-event payload: alias chain then ISO parse. -/
def eventStartOf (nowLocal : PyDateTime) (payload : DPayload) : Option PyDateTime :=
  parseIso nowLocal (orChain
    [getP payload "start", getP payload "date_time", getP payload "start_dt",
     getP payload "datetime"])

/-- The normalised title of a create-event payload (alias chain, fallback
`"Etkinlik"`, strip, non-empty fallback).  A truthy non-string title would
raise in Python and is outside the modelled domain (mapped to the default
title). -/
def eventTitleOf (payload : DPayload) : Text :=
  let titleValue := orChain [getP payload "title", getP payload "event", getP payload "name"]
  let rawTitle : Text :=
    match titleValue with
    | some v => if pyTruthy v then (match v with | .s t => t | _ => "Etkinlik".data) else "Etkinlik".data
    | none => "Etkinlik".data
  let t := pyStrip rawTitle
  if t = [] then "Etkinlik".data else t

/-- The coerced title of a create-task payload: `str(payload.get("title",
"Görev") or "")`, stripped, with the non-empty fallback. -/
def taskTitleOf (payload : DPayload) : Text :=
  let rawTitle : Text :=
    match getP payload "title" with
    | none => "Görev".data
    | some v => if pyTruthy v then pyStrOf v else []
  let t := pyStrip rawTitle
  if t = [] then "Görev".data else t

/-- The create-event window query: with a parsed start, events whose start
lies within ±1 hour (NULL starts excluded by the SQL comparison); without
one, all events. -/
def eventWindow (nowLocal : PyDateTime) (st : Store) (payload : DPayload) :
    List StoredEvent :=
  match eventStartOf nowLocal payload with
  | some s =>
      st.events.filter (fun e =>
        match e.start? with
        | some es => instant s - 3600 ≤ instant es && instant es ≤ instant s + 3600
        | none => false)
  | none => st.events

/-- The event duplicate test: stripped case-folded title equality plus the
temporal-closeness rule. -/
def eventDupPred (nowLocal : PyDateTime) (payload : DPayload) (e : StoredEvent) : Bool :=
  titleKeyEq e.title (pyLower (eventTitleOf payload))
    && timeClose (eventStartOf nowLocal payload) e.start?

/-- The source's `handle_add_event`: alias resolution, ISO parsing, the
±1-hour window query, the duplicate check, then insertion and reminder
scheduling.  Sub-second components are ignored by the instant arithmetic
(`total_seconds` on whole-second values).  A truthy non-string title would
raise in Python and is outside the modelled domain (mapped to the default
title). -/
def handle_add_event (nowLocal nowUtc : PyDateTime) (st : Store) (payload : DPayload) :
    AddEventResult :=
  let start := eventStartOf nowLocal payload
  let _end := parseIso nowLocal
    (orChain [getP payload "end", getP payload "end_dt", getP payload "end_time"])
  let startDt := start.getD nowUtc
  let dup? : Option StoredEvent :=
    (eventWindow nowLocal st payload).find? (eventDupPred nowLocal payload)
  match dup? with
  | some e => { eventId := e.id, duplicate := true, scheduled := false, store := st }
  | none =>
      let stored : StoredEvent :=
        { id := st.nextId, title := eventTitleOf payload, start? := ensureUtc (some startDt) }
      { eventId := st.nextId, duplicate := false, scheduled := true,
        store := { st with events := st.events ++ [stored], nextId := st.nextId + 1 } }

/-- Result of `handle_add_task`. -/
structure AddTaskResult where
  taskId : Nat
  duplicate : Bool
  store : Store
  deriving DecidableEq, Repr

/-- The tasks returned by `list_tasks(include_completed=False)`: the
non-completed rows. -/
def pendingTasks (st : Store) : List StoredTask :=
  st.tasks.filter (fun t => t.status ≠ .done)

/-- The task duplicate test: stripped case-folded title equality plus the
temporal-closeness rule on due dates. -/
def taskDupPred (nowLocal : PyDateTime) (payload : DPayload) (e : StoredTask) : Bool :=
  titleKeyEq e.title (pyLower (taskTitleOf payload))
    && timeClose (parseIso nowLocal (getP payload "due")) e.due?

/-- The source's `handle_add_task`: title coercion, due parsing, the
duplicate scan over non-completed tasks, then insertion.  The source orders
the queried tasks by due date; the model keeps insertion order, which only
affects the choice among several simultaneous duplicates. -/
def handle_add_task (nowLocal : PyDateTime) (st : Store) (payload : DPayload) :
    AddTaskResult :=
  let title := taskTitleOf payload
  let dueDt := parseIso nowLocal (getP payload "due")
  let dup? : Option StoredTask :=
    (pendingTasks st).find? (taskDupPred nowLocal payload)
  match dup? with
  | some e => { taskId := e.id, duplicate := true, store := st }
  | none =>
      let stored : StoredTask :=
        { id := st.nextId, title := title, due? := ensureUtc dueDt, status := .todo }
      { taskId := st.nextId, duplicate := false,
        store := { st with tasks := st.tasks ++ [stored], nextId := st.nextId + 1 } }

/-- Payload lookup on a rule-built action. -/
def payloadGet (a : Action) (k : String) : Option PVal :=
  (a.payload.find? (fun kv => kv.1 = k)).map (·.2)

/-- The underlying parsed value of a base resolution. -/
def baseVal : BaseResolved → PyDateTime
  | .direct d => d
  | .fromSearch _ d => d

/-! ## Lemmas on the text normaliser (towards idempotence) -/

theorem aposSubAux_of_no_apos : ∀ (s : Text) (prev : Option Char), apos ∉ s →
    aposSubAux prev s = s
  | [], _, _ => rfl
  | c :: rest, prev, h => by
      have hc : ¬(c = apos) := fun e => h (e ▸ List.mem_cons_self c rest)
      have hr : apos ∉ rest := fun m => h (List.mem_cons_of_mem _ m)
      simp [aposSubAux, hc, aposSubAux_of_no_apos rest (some c) hr]

theorem mem_collapseAux : ∀ (p : Bool) (s : Text) (c : Char), c ∈ collapseAux p s →
    c = ' ' ∨ (c ∈ s ∧ pyIsSpace c = false)
  | p, [], c, h => by simp [collapseAux] at h
  | p, a :: rest, c, h => by
      by_cases ha : pyIsSpace a = true
      · rcases p with _ | _
        · simp [collapseAux, ha] at h
          rcases h with h | h
          · exact Or.inl h
          · rcases mem_collapseAux true rest c h with h' | ⟨hm, hs⟩
            · exact Or.inl h'
            · exact Or.inr ⟨List.mem_cons_of_mem _ hm, hs⟩
        · simp [collapseAux, ha] at h
          rcases mem_collapseAux true rest c h with h' | ⟨hm, hs⟩
          · exact Or.inl h'
          · exact Or.inr ⟨List.mem_cons_of_mem _ hm, hs⟩
      · simp [collapseAux, ha] at h
        rcases h with h | h
        · exact Or.inr ⟨h ▸ List.mem_cons_self a rest, h ▸ (by simpa using ha)⟩
        · rcases mem_collapseAux false rest c h with h' | ⟨hm, hs⟩
          · exact Or.inl h'
          · exact Or.inr ⟨List.mem_cons_of_mem _ hm, hs⟩

/-- Adjacent characters of a text are never both whitespace. -/
def NoAdjSp (s : Text) : Prop :=
  s.Chain' (fun a b => ¬(pyIsSpace a = true ∧ pyIsSpace b = true))

theorem collapseAux_head_true : ∀ (s : Text) (c : Char),
    (collapseAux true s).head? = some c → pyIsSpace c = false
  | [], c, h => by simp [collapseAux] at h
  | a :: rest, c, h => by
      by_cases ha : pyIsSpace a = true
      · exact collapseAux_head_true rest c (by simpa [collapseAux, ha] using h)
      · simp [collapseAux, ha] at h
        exact h ▸ (by simpa using ha)

theorem noAdj_collapseAux : ∀ (s : Text) (p : Bool), NoAdjSp (collapseAux p s)
  | [], p => by simp [collapseAux, NoAdjSp]
  | a :: rest, p => by
      by_cases ha : pyIsSpace a = true
      · rcases p with _ | _
        · rw [NoAdjSp, collapseAux, if_pos ha]
          show List.Chain' _ (' ' :: collapseAux true rest)
          rw [List.chain'_cons']
          refine ⟨fun y hy => ?_, noAdj_collapseAux rest true⟩
          have := collapseAux_head_true rest y hy
          simp [this]
        · rw [NoAdjSp, collapseAux, if_pos ha]
          exact noAdj_collapseAux rest true
      · rw [NoAdjSp, collapseAux, if_neg ha]
        rw [List.chain'_cons']
        refine ⟨fun y hy => ?_, noAdj_collapseAux rest false⟩
        simp [ha]

theorem collapseAux_eq_self : ∀ (s : Text) (p : Bool),
    (∀ c ∈ s, pyIsSpace c = true → c = ' ') → NoAdjSp s →
    (p = true → ∀ c, s.head? = some c → pyIsSpace c = false) →
    collapseAux p s = s
  | [], p, _, _, _ => rfl
  | a :: rest, p, hcanon, hadj, hhead => by
      have htail : NoAdjSp rest := List.Chain'.tail hadj
      have hcanon' : ∀ c ∈ rest, pyIsSpace c = true → c = ' ' :=
        fun c hm => hcanon c (List.mem_cons_of_mem _ hm)
      by_cases ha : pyIsSpace a = true
      · have hsp : a = ' ' := hcanon a (List.mem_cons_self a rest) ha
        rcases p with _ | _
        · rw [collapseAux, if_pos ha, if_neg (by simp)]
          have hrest : collapseAux true rest = rest := by
            refine collapseAux_eq_self rest true hcanon' htail fun _ c hc => ?_
            rcases rest with _ | ⟨b, rest'⟩
            · simp at hc
            · have := (List.chain'_cons'.mp hadj).1 b (by simp)
              simp at hc
              subst hc
              by_contra hb
              exact this ⟨ha, by simpa using hb⟩
          rw [hrest, hsp]
        · exact absurd (hhead rfl a rfl) (by simpa using ha)
      · rw [collapseAux, if_neg ha]
        rw [collapseAux_eq_self rest false hcanon' htail (by simp)]

theorem mem_dropWhile {p : Char → Bool} : ∀ {l : Text} {c : Char},
    c ∈ l.dropWhile p → c ∈ l := by
  intro l
  induction l with
  | nil => intro c h; simp at h
  | cons a rest ih =>
      intro c h
      rw [List.dropWhile_cons] at h
      by_cases hp : p a = true
      · simp [hp] at h
        exact List.mem_cons_of_mem _ (ih h)
      · simpa [hp] using h

theorem mem_pyStrip {s : Text} {c : Char} (h : c ∈ pyStrip s) : c ∈ s := by
  rw [pyStrip] at h
  rw [List.mem_reverse] at h
  have h2 := mem_dropWhile h
  rw [List.mem_reverse] at h2
  exact mem_dropWhile h2

theorem head?_dropWhile {p : Char → Bool} : ∀ (l : Text) (c : Char),
    (l.dropWhile p).head? = some c → p c = false
  | [], c, h => by simp at h
  | a :: rest, c, h => by
      rw [List.dropWhile_cons] at h
      by_cases hp : p a = true
      · exact head?_dropWhile rest c (by simpa [hp] using h)
      · simp [hp] at h
        exact h ▸ (by simpa using hp)

theorem noAdj_dropWhile {p : Char → Bool} : ∀ (l : Text), NoAdjSp l →
    NoAdjSp (l.dropWhile p)
  | [], h => h
  | a :: rest, h => by
      rw [List.dropWhile_cons]
      by_cases hp : p a = true
      · simp only [hp, if_true]
        exact noAdj_dropWhile rest (List.Chain'.tail h)
      · simpa [hp] using h

theorem noAdj_reverse {l : Text} (h : NoAdjSp l) : NoAdjSp l.reverse := by
  rw [NoAdjSp, List.chain'_reverse]
  exact h.imp fun a b hab => fun ⟨x, y⟩ => hab ⟨y, x⟩

theorem noAdj_pyStrip {s : Text} (h : NoAdjSp s) : NoAdjSp (pyStrip s) :=
  noAdj_reverse (noAdj_dropWhile _ (noAdj_reverse (noAdj_dropWhile _ h)))

theorem dropWhile_eq_self_of_head {p : Char → Bool} {l : Text}
    (h : ∀ c, l.head? = some c → p c = false) : l.dropWhile p = l := by
  rcases l with _ | ⟨a, rest⟩
  · rfl
  · rw [List.dropWhile_cons, if_neg (by simp [h a rfl])]

theorem getLast?_dropWhile {p : Char → Bool} : ∀ (l : Text),
    l.dropWhile p ≠ [] → (l.dropWhile p).getLast? = l.getLast?
  | [], h => rfl
  | a :: rest, h => by
      rw [List.dropWhile_cons]
      rw [List.dropWhile_cons] at h
      by_cases hp : p a = true
      · simp only [hp, if_true] at h ⊢
        have hrest : rest ≠ [] := by
          rcases rest with _ | _
          · simp at h
          · simp
        rcases rest with _ | ⟨b, rest'⟩
        · simp at h
        · rw [getLast?_dropWhile (b :: rest') (by simpa [hp] using h),
            List.getLast?_cons_cons]
      · simp [hp]

theorem pyStrip_head {s : Text} {c : Char} (h : (pyStrip s).head? = some c) :
    pyIsSpace c = false := by
  rw [pyStrip, List.head?_reverse] at h
  have hne : (((s.dropWhile pyIsSpace).reverse).dropWhile pyIsSpace) ≠ [] := by
    intro e
    rw [e] at h
    simp at h
  rw [getLast?_dropWhile _ hne, List.getLast?_reverse] at h
  exact head?_dropWhile _ _ h

theorem pyStrip_last {s : Text} {c : Char} (h : (pyStrip s).getLast? = some c) :
    pyIsSpace c = false := by
  rw [pyStrip, List.getLast?_reverse] at h
  exact head?_dropWhile _ _ h

theorem pyStrip_eq_self {s : Text}
    (h1 : ∀ c, s.head? = some c → pyIsSpace c = false)
    (h2 : ∀ c, s.getLast? = some c → pyIsSpace c = false) : pyStrip s = s := by
  rw [pyStrip, dropWhile_eq_self_of_head h1]
  rw [dropWhile_eq_self_of_head (fun c hc => h2 c (by rwa [List.head?_reverse] at hc))]
  exact List.reverse_reverse s

theorem map_eq_self_of_chars {f : Char → Char} : ∀ (l : Text),
    (∀ c ∈ l, f c = c) → l.map f = l
  | [], _ => rfl
  | a :: rest, h => by
      rw [List.map_cons, h a (List.mem_cons_self a rest),
        map_eq_self_of_chars rest fun c hm => h c (List.mem_cons_of_mem _ hm)]

theorem apos_not_mem_normalised (s : Text) : apos ∉ normaliseText s := by
  intro hmem
  have h1 := mem_pyStrip hmem
  rcases mem_collapseAux _ _ _ h1 with h | ⟨h, _⟩
  · exact absurd h (by decide)
  · rcases List.mem_map.mp h with ⟨c, _, hc⟩
    by_cases e : c = apos
    · rw [if_pos e] at hc
      exact absurd hc (by decide)
    · rw [if_neg e] at hc
      exact e (hc)

theorem normalised_space_canon (s : Text) :
    ∀ c ∈ normaliseText s, pyIsSpace c = true → c = ' ' := by
  intro c hmem _
  have h1 := mem_pyStrip hmem
  rcases mem_collapseAux _ _ _ h1 with h | ⟨_, hs⟩
  · exact h
  · simp_all

theorem normalised_noAdj (s : Text) : NoAdjSp (normaliseText s) :=
  noAdj_pyStrip (noAdj_collapseAux _ _)

/-- C9: the text normaliser `_normalise_text` is a pure total function (it
is a Lean function of the model, so it can never fail) and is idempotent:
for every string `s`, `normalize(normalize(s)) = normalize(s)`. -/
theorem C9_normalizer_idempotent (s : Text) :
    normaliseText (normaliseText s) = normaliseText s := by
  have hnoapos := apos_not_mem_normalised s
  rw [normaliseText, aposSub, aposSubAux_of_no_apos _ _ hnoapos]
  rw [map_eq_self_of_chars _ (fun c hc => by
    rw [if_neg]
    intro e
    exact hnoapos (e ▸ hc))]
  rw [collapseWs, collapseAux_eq_self _ false (normalised_space_canon s)
    (normalised_noAdj s) (by simp)]
  exact pyStrip_eq_self (fun c hc => pyStrip_head hc) (fun c hc => pyStrip_last hc)

/-! ## Lemmas on the extractor pipeline stages -/

theorem attachIst_fields (d : PyDateTime) :
    (attachIst d).year = d.year ∧ (attachIst d).month = d.month
      ∧ (attachIst d).day = d.day ∧ (attachIst d).hour = d.hour
      ∧ (attachIst d).minute = d.minute := by
  cases h : d.tz <;> simp [attachIst, h]

theorem applyHour_some_eq (h dh dm ht d) :
    applyHour (some h) dh dm ht d = { d with hour := h, minute := dm, second := 0, micro := 0 } :=
  rfl

theorem applyHour_none_hasTime (dh dm d) : applyHour none dh dm true d = d := by
  cases dh <;> simp [applyHour]

theorem applyDaySuffix_dates (s? : Option Nat) (d : PyDateTime) :
    (applyDaySuffix s? d).year = d.year ∧ (applyDaySuffix s? d).month = d.month
      ∧ (applyDaySuffix s? d).hour = d.hour ∧ (applyDaySuffix s? d).minute = d.minute := by
  cases s? with
  | none => exact ⟨rfl, rfl, rfl, rfl⟩
  | some n =>
      simp only [applyDaySuffix]
      split <;> exact ⟨rfl, rfl, rfl, rfl⟩

theorem applyHour_indep (E : Option Nat) (dh dh' : Option Nat) (dm : Nat) (d : PyDateTime) :
    applyHour E dh dm true d = applyHour E dh' dm true d := by
  cases E with
  | some h => rfl
  | none => rw [applyHour_none_hasTime, applyHour_none_hasTime]

theorem applyDaySuffix_none (d) : applyDaySuffix none d = d := rfl

theorem applyDaySuffix_some_valid {n : Nat} (d) (h1 : 1 ≤ n)
    (h2 : n ≤ daysInMonth d.year d.month) :
    applyDaySuffix (some n) d = { d with day := n } := by
  simp [applyDaySuffix, h1, h2]

theorem applyDaySuffix_some_invalid {n : Nat} (d : PyDateTime)
    (h : ¬(1 ≤ n ∧ n ≤ daysInMonth d.year d.month)) :
    applyDaySuffix (some n) d = d := by
  simp only [applyDaySuffix]
  rw [if_neg]
  intro hc
  rw [Bool.and_eq_true, decide_eq_true_eq, decide_eq_true_eq] at hc
  exact h hc

theorem applyReset_hours (eff b) :
    (applyReset eff b).hour = (baseVal b).hour
      ∧ (applyReset eff b).minute = (baseVal b).minute := by
  cases b with
  | direct d => simp [applyReset, baseVal]
  | fromSearch f d =>
      simp only [applyReset, baseVal]
      split <;> simp

theorem applyReset_fromSearch_dates (eff f d) (hf : matchHasExplicitDate f = false) :
    applyReset eff (.fromSearch f d) =
      { d with year := eff.year, month := eff.month, day := eff.day } := by
  simp [applyReset, hf]

/-- Unfolded shape of `parse_datetime` used by the pipeline proofs. -/
theorem parse_datetime_eq (o : DpOracle) (text : Text) (ref : Option PyDateTime)
    (nl : PyDateTime) (dh : Option Nat) (dm : Nat) :
    parse_datetime o text ref nl dh dm =
      match resolveBase o
          (dateCandidates (normaliseText text) (timeSearch (normaliseText text))) with
      | none => none
      | some b =>
          some (attachIst (applyHour
            (match timeSearch (normaliseText text) with
             | some t => adjustEvening t (extractedHourOf t)
             | none => none)
            dh dm (timeSearch (normaliseText text)).isSome
            (applyDaySuffix (daySuffixSearch (normaliseText text))
              (applyReset (ref.getD nl) b)))) := rfl

/-- The extractor returns a value exactly when the base resolution finds
one, independently of the default hour/minute. -/
theorem parse_datetime_isSome (o : DpOracle) (text : Text) (ref : Option PyDateTime)
    (nl : PyDateTime) (dh : Option Nat) (dm : Nat) :
    (parse_datetime o text ref nl dh dm).isSome =
      (resolveBase o
        (dateCandidates (normaliseText text) (timeSearch (normaliseText text)))).isSome := by
  rw [parse_datetime_eq]
  cases resolveBase o
      (dateCandidates (normaliseText text) (timeSearch (normaliseText text))) <;> simp

/-- Shape of `parse_datetime` when the time search succeeded but the base
resolution failed. -/
theorem parse_datetime_none_base (o : DpOracle) (text : Text) (ref : Option PyDateTime)
    (nl : PyDateTime) (dh : Option Nat) (dm : Nat) (t : TimeMatch)
    (ht : timeSearch (normaliseText text) = some t)
    (hb : resolveBase o (dateCandidates (normaliseText text) (some t)) = none) :
    parse_datetime o text ref nl dh dm = none := by
  rw [parse_datetime_eq, ht, hb]

/-- Shape of `parse_datetime` when the time search and base resolution both
succeeded. -/
theorem parse_datetime_some_base (o : DpOracle) (text : Text) (ref : Option PyDateTime)
    (nl : PyDateTime) (dh : Option Nat) (dm : Nat) (t : TimeMatch) (b : BaseResolved)
    (ht : timeSearch (normaliseText text) = some t)
    (hb : resolveBase o (dateCandidates (normaliseText text) (some t)) = some b) :
    parse_datetime o text ref nl dh dm =
      some (attachIst (applyHour (adjustEvening t (extractedHourOf t)) dh dm true
        (applyDaySuffix (daySuffixSearch (normaliseText text))
          (applyReset (ref.getD nl) b)))) := by
  rw [parse_datetime_eq, ht, hb]
  rfl

/-! ## Claim C3: explicit `HH:MM` / `HH.MM` time patterns -/

/-- C3 (amended): when the normalised text has an explicit-time match,
(1) the extractor's result does not depend on the caller-supplied default
hour at all; (2) when the first match is of the `saat H` / `H da` form with
a resolvable hour, the returned hour equals the (evening-adjusted)
extracted hour and the returned minute equals the default minute; (3) when
the first match is a digit-pair (`HH:MM`/`HH.MM`/`HH MM`) pattern, the
returned hour and minute are exactly those of the underlying library parse
(the default hour is never applied).  The original claim, keyed to any
`HH:MM` occurrence anywhere in the text, fails: an earlier `saat H` match
wins and overwrites the minute (see the counterexample). -/
theorem C3_explicit_time (o : DpOracle) (text : Text) (ref : Option PyDateTime)
    (nl : PyDateTime) (dm : Nat) (t : TimeMatch)
    (ht : timeSearch (normaliseText text) = some t) :
    (∀ dh dh', parse_datetime o text ref nl dh dm = parse_datetime o text ref nl dh' dm)
    ∧ (∀ h r dh, adjustEvening t (extractedHourOf t) = some h →
        parse_datetime o text ref nl dh dm = some r → r.hour = h ∧ r.minute = dm)
    ∧ (∀ r dh b, t.hourRaw = none →
        resolveBase o (dateCandidates (normaliseText text) (some t)) = some b →
        parse_datetime o text ref nl dh dm = some r →
        r.hour = (baseVal b).hour ∧ r.minute = (baseVal b).minute) := by
  refine ⟨?_, ?_, ?_⟩
  · intro dh dh'
    cases hb : resolveBase o (dateCandidates (normaliseText text) (some t)) with
    | none =>
        rw [parse_datetime_none_base o text ref nl dh dm t ht hb,
          parse_datetime_none_base o text ref nl dh' dm t ht hb]
    | some b =>
        rw [parse_datetime_some_base o text ref nl dh dm t b ht hb,
          parse_datetime_some_base o text ref nl dh' dm t b ht hb]
        exact congrArg (fun x => some (attachIst x)) (applyHour_indep _ dh dh' dm _)
  · intro h r dh he hr
    cases hb : resolveBase o (dateCandidates (normaliseText text) (some t)) with
    | none =>
        rw [parse_datetime_none_base o text ref nl dh dm t ht hb] at hr
        exact absurd hr (by simp)
    | some b =>
        rw [parse_datetime_some_base o text ref nl dh dm t b ht hb, he,
          applyHour_some_eq] at hr
        have hreq := Option.some_inj.mp hr
        subst hreq
        exact ⟨by rw [(attachIst_fields _).2.2.2.1], by rw [(attachIst_fields _).2.2.2.2]⟩
  · intro r dh b hraw hb hr
    rw [parse_datetime_some_base o text ref nl dh dm t b ht hb] at hr
    have he : adjustEvening t (extractedHourOf t) = none := by
      simp [adjustEvening, extractedHourOf, hraw]
    rw [he, applyHour_none_hasTime] at hr
    have hreq := Option.some_inj.mp hr
    subst hreq
    constructor
    · rw [(attachIst_fields _).2.2.2.1, (applyDaySuffix_dates _ _).2.2.1,
        (applyReset_hours _ _).1]
    · rw [(attachIst_fields _).2.2.2.2, (applyDaySuffix_dates _ _).2.2.2,
        (applyReset_hours _ _).2]

/-- The spec's reference instant, `2025-10-02T09:00+03:00`. -/
def refIst : PyDateTime := ⟨2025, 10, 2, 9, 0, 0, 0, some 180⟩

/-- Oracle for the C3 witness: direct parse succeeds on the whole text. -/
def c3wOracle : DpOracle :=
  { parse := fun c =>
      if c = "saat 9 da".data then some ⟨2025, 10, 2, 9, 30, 0, 0, some 180⟩ else none,
    search := fun _ => [] }

theorem C3_explicit_time_witness :
    timeSearch (normaliseText "saat 9 da".data) =
        some ⟨[], "saat 9 da".data, some 9, []⟩
      ∧ ∃ r, parse_datetime c3wOracle "saat 9 da".data (some refIst) refIst (some 18) 0 =
          some r ∧ r.hour = 9 ∧ r.minute = 0 :=
  ⟨by decide, ⟨⟨2025, 10, 2, 9, 0, 0, 0, some 180⟩, by decide,
    (C3_explicit_time c3wOracle "saat 9 da".data (some refIst) refIst 0
        ⟨[], "saat 9 da".data, some 9, []⟩ (by decide)).2.1
      9 ⟨2025, 10, 2, 9, 0, 0, 0, some 180⟩ (some 18) (by decide) (by decide)⟩⟩

/-- Oracle for the C3 counterexample: the underlying parser resolves the
whole text `"saat 14:30"` to 14:30 (as the real `dateparser` does). -/
def c3cOracle : DpOracle :=
  { parse := fun c =>
      if c = "saat 14:30".data then some ⟨2025, 10, 2, 14, 30, 0, 0, some 180⟩ else none,
    search := fun _ => [] }

/-- C3 counterexample: the input `"saat 14:30"` contains the explicit
`HH:MM` pattern `14:30`, yet the extractor returns minute `0`, not `30`:
the leftmost `_TIME_PATTERN` match is `"saat 14"`, whose extracted hour
overwrites the minute with the default minute.  The claim, which requires
the returned hour/minute to equal those of the contained `HH:MM` pattern,
is false. -/
theorem C3_counterexample :
    hasSub "14:30".data "saat 14:30".data = true
      ∧ parse_datetime c3cOracle "saat 14:30".data (some refIst) refIst (some 18) 0 =
          some ⟨2025, 10, 2, 14, 0, 0, 0, some 180⟩
      ∧ (0 : Nat) ≠ 30 :=
  ⟨by decide, by decide, by decide⟩

/-! ## Claim C4: time-only search fragments keep the reference date -/

theorem applyHour_dates (E : Option Nat) (dh : Option Nat) (dm : Nat) (ht : Bool)
    (d : PyDateTime) :
    (applyHour E dh dm ht d).year = d.year ∧ (applyHour E dh dm ht d).month = d.month
      ∧ (applyHour E dh dm ht d).day = d.day := by
  cases E with
  | some h => exact ⟨rfl, rfl, rfl⟩
  | none =>
      cases dh with
      | none => exact ⟨rfl, rfl, rfl⟩
      | some v =>
          simp only [applyHour]
          split <;> exact ⟨rfl, rfl, rfl⟩

/-- Shape of `parse_datetime` under a successful base resolution, for any
time-search outcome. -/
theorem parse_datetime_base (o : DpOracle) (text : Text) (ref : Option PyDateTime)
    (nl : PyDateTime) (dh : Option Nat) (dm : Nat) (b : BaseResolved)
    (hb : resolveBase o
        (dateCandidates (normaliseText text) (timeSearch (normaliseText text))) = some b) :
    parse_datetime o text ref nl dh dm =
      some (attachIst (applyHour
        (match timeSearch (normaliseText text) with
         | some t => adjustEvening t (extractedHourOf t)
         | none => none)
        dh dm (timeSearch (normaliseText text)).isSome
        (applyDaySuffix (daySuffixSearch (normaliseText text))
          (applyReset (ref.getD nl) b)))) := by
  rw [parse_datetime_eq, hb]

/-- C4 (amended): when the extractor resolves through the substring-search
fallback and the matched fragment carries no explicit date signal, the
returned value's year and month equal the caller-supplied reference's, and
its day equals the reference's day unless a day-ordinal suffix elsewhere in
the text overrides it (a valid suffix `N` sets the day to `N`; an invalid
one is skipped).  The original claim asserted the returned day always
equals the reference's; the later day-ordinal override falsifies that (see
the counterexample). -/
theorem C4_time_only_fragment (o : DpOracle) (text : Text) (refv nl : PyDateTime)
    (dh : Option Nat) (dm : Nat) (f : Text) (d : PyDateTime)
    (hb : resolveBase o
        (dateCandidates (normaliseText text) (timeSearch (normaliseText text)))
        = some (.fromSearch f d))
    (hf : matchHasExplicitDate f = false) :
    ∀ r, parse_datetime o text (some refv) nl dh dm = some r →
      r.year = refv.year ∧ r.month = refv.month
      ∧ (daySuffixSearch (normaliseText text) = none → r.day = refv.day)
      ∧ (∀ n, daySuffixSearch (normaliseText text) = some n →
          ((1 ≤ n ∧ n ≤ daysInMonth refv.year refv.month) → r.day = n)
          ∧ (¬(1 ≤ n ∧ n ≤ daysInMonth refv.year refv.month) → r.day = refv.day)) := by
  intro r hr
  rw [parse_datetime_base o text (some refv) nl dh dm _ hb] at hr
  rw [Option.getD_some, applyReset_fromSearch_dates refv f d hf] at hr
  have hreq := Option.some_inj.mp hr
  subst hreq
  refine ⟨?_, ?_, ?_, ?_⟩
  · rw [(attachIst_fields _).1, (applyHour_dates _ _ _ _ _).1,
      (applyDaySuffix_dates _ _).1]
  · rw [(attachIst_fields _).2.1, (applyHour_dates _ _ _ _ _).2.1,
      (applyDaySuffix_dates _ _).2.1]
  · intro hs
    rw [hs]
    rw [(attachIst_fields _).2.2.1, (applyHour_dates _ _ _ _ _).2.2,
      applyDaySuffix_none]
  · intro n hs
    rw [hs]
    constructor
    · intro hv
      rw [(attachIst_fields _).2.2.1, (applyHour_dates _ _ _ _ _).2.2,
        applyDaySuffix_some_valid]
      · exact hv.1
      · exact hv.2
    · intro hv
      rw [(attachIst_fields _).2.2.1, (applyHour_dates _ _ _ _ _).2.2,
        applyDaySuffix_some_invalid]
      exact hv

/-- Oracle for the C4 witness: direct parse fails, `search_dates` resolves
the time-only fragment `"saat 10 da"` to a different calendar day. -/
def c4wOracle : DpOracle :=
  { parse := fun _ => none,
    search := fun c =>
      if c = "saat 10 da".data then
        [("saat 10 da".data, ⟨2025, 10, 6, 10, 0, 0, 0, some 180⟩)]
      else [] }

theorem C4_time_only_fragment_witness :
    matchHasExplicitDate "saat 10 da".data = false
      ∧ ∃ r, parse_datetime c4wOracle "saat 10 da".data (some refIst) refIst (some 18) 0 =
          some r ∧ r.year = 2025 ∧ r.month = 10 ∧ r.day = 2 :=
  ⟨by decide,
    ⟨⟨2025, 10, 2, 10, 0, 0, 0, some 180⟩, by decide, by
      have h := C4_time_only_fragment c4wOracle "saat 10 da".data refIst refIst
        (some 18) 0 "saat 10 da".data ⟨2025, 10, 6, 10, 0, 0, 0, some 180⟩
        (by decide) (by decide) ⟨2025, 10, 2, 10, 0, 0, 0, some 180⟩ (by decide)
      exact ⟨h.1, h.2.1, h.2.2.1 (by decide)⟩⟩⟩

/-- Oracle for the C4 counterexample: same search fallback, but the text
also carries the day-ordinal suffix `"22 si"`. -/
def c4cOracle : DpOracle :=
  { parse := fun _ => none,
    search := fun c =>
      if c = "22 si saat 10 da".data then
        [("saat 10 da".data, ⟨2025, 10, 6, 10, 0, 0, 0, some 180⟩)]
      else [] }

/-- C4 counterexample: on `"22 si saat 10 da"` the fallback's fragment
`"saat 10 da"` carries no explicit date signal, so the claim requires the
returned day to equal the reference's (`2`); but the day-ordinal override
then sets the day to `22`.  The claim as stated is false. -/
theorem C4_counterexample :
    matchHasExplicitDate "saat 10 da".data = false
      ∧ resolveBase c4cOracle
          (dateCandidates (normaliseText "22 si saat 10 da".data)
            (timeSearch (normaliseText "22 si saat 10 da".data)))
        = some (.fromSearch "saat 10 da".data ⟨2025, 10, 6, 10, 0, 0, 0, some 180⟩)
      ∧ parse_datetime c4cOracle "22 si saat 10 da".data (some refIst) refIst (some 18) 0 =
          some ⟨2025, 10, 22, 10, 0, 0, 0, some 180⟩
      ∧ (22 : Nat) ≠ refIst.day :=
  ⟨by decide, by decide, by decide, by decide⟩

/-! ## Claim C5: evening-period resolution -/

/-- C5 (amended): when the evening hint is found among the last three words
immediately before the time match (the window `_detect_period_hint`
examines) and the extracted hour `h` is below 12, the returned hour equals
`h + 12`.  The original claim let the hint stand anywhere before the match;
a hint four or more words earlier is ignored by the code (see the
counterexample). -/
theorem C5_evening_hint (o : DpOracle) (text : Text) (ref : Option PyDateTime)
    (nl : PyDateTime) (dh : Option Nat) (dm : Nat) (t : TimeMatch) (h : Nat)
    (ht : timeSearch (normaliseText text) = some t)
    (hh : extractedHourOf t = some h) (hlt : h < 12)
    (hint : detectPeriodHint (pyLower t.before) = true) :
    ∀ r, parse_datetime o text ref nl dh dm = some r → r.hour = h + 12 := by
  intro r hr
  have he : adjustEvening t (extractedHourOf t) = some (h + 12) := by
    rw [hh]
    simp [adjustEvening, hint, hlt]
  cases hb : resolveBase o (dateCandidates (normaliseText text) (some t)) with
  | none =>
      rw [parse_datetime_none_base o text ref nl dh dm t ht hb] at hr
      exact absurd hr (by simp)
  | some b =>
      rw [parse_datetime_some_base o text ref nl dh dm t b ht hb, he,
        applyHour_some_eq] at hr
      have hreq := Option.some_inj.mp hr
      subst hreq
      rw [(attachIst_fields _).2.2.2.1]

/-- Oracle for the C5 witness. -/
def c5wOracle : DpOracle :=
  { parse := fun c =>
      if c = "akşam saat 9 da".data then some ⟨2025, 10, 2, 9, 0, 0, 0, some 180⟩ else none,
    search := fun _ => [] }

theorem C5_evening_hint_witness :
    ∃ r, parse_datetime c5wOracle "akşam saat 9 da".data (some refIst) refIst (some 18) 0 =
        some r ∧ r.hour = 21 :=
  ⟨⟨2025, 10, 2, 21, 0, 0, 0, some 180⟩, by decide,
    C5_evening_hint c5wOracle "akşam saat 9 da".data (some refIst) refIst (some 18) 0
      ⟨"akşam ".data, "saat 9 da".data, some 9, []⟩ 9
      (by decide) (by decide) (by decide) (by decide)
      ⟨2025, 10, 2, 21, 0, 0, 0, some 180⟩ (by decide)⟩

/-- Oracle for the C5 counterexample. -/
def c5cOracle : DpOracle :=
  { parse := fun c =>
      if c = "akşam bir iki üç saat 9 da".data then
        some ⟨2025, 10, 2, 9, 0, 0, 0, some 180⟩
      else none,
    search := fun _ => [] }

/-- C5 counterexample: in `"akşam bir iki üç saat 9 da"` the evening word
precedes the matched hour `9 < 12`, but sits four words before the match,
outside the three-word window the code inspects; the returned hour is `9`,
not `21`.  The claim as stated (any preceding evening word) is false. -/
theorem C5_counterexample :
    timeSearch (normaliseText "akşam bir iki üç saat 9 da".data) =
        some ⟨"akşam bir iki üç ".data, "saat 9 da".data, some 9, []⟩
      ∧ hasSub "akşam".data "akşam bir iki üç ".data = true
      ∧ parse_datetime c5cOracle "akşam bir iki üç saat 9 da".data (some refIst) refIst
          (some 18) 0 = some ⟨2025, 10, 2, 9, 0, 0, 0, some 180⟩
      ∧ (9 : Nat) ≠ 9 + 12 :=
  ⟨by decide, by decide, by decide, by decide⟩

/-! ## Claim C6: day-ordinal override -/

/-- C6: when the normalised text carries a day-ordinal suffix with number
`N` and the base resolution (steps 5–6 of the extractor, including the
search-fragment date reset) succeeded, the returned value's month and year
equal the base resolution's, and its day equals `N` when `N` is a valid day
of that month, the base day otherwise (invalid overrides are skipped). -/
theorem C6_day_ordinal (o : DpOracle) (text : Text) (ref : Option PyDateTime)
    (nl : PyDateTime) (dh : Option Nat) (dm : Nat) (n : Nat) (b : BaseResolved)
    (hs : daySuffixSearch (normaliseText text) = some n)
    (hb : resolveBase o
        (dateCandidates (normaliseText text) (timeSearch (normaliseText text))) = some b) :
    ∃ r, parse_datetime o text ref nl dh dm = some r
      ∧ r.month = (applyReset (ref.getD nl) b).month
      ∧ r.year = (applyReset (ref.getD nl) b).year
      ∧ ((1 ≤ n ∧ n ≤ daysInMonth (applyReset (ref.getD nl) b).year
            (applyReset (ref.getD nl) b).month) → r.day = n)
      ∧ (¬(1 ≤ n ∧ n ≤ daysInMonth (applyReset (ref.getD nl) b).year
            (applyReset (ref.getD nl) b).month) → r.day = (applyReset (ref.getD nl) b).day) := by
  refine ⟨_, parse_datetime_base o text ref nl dh dm b hb, ?_, ?_, ?_, ?_⟩
  · rw [(attachIst_fields _).2.1, (applyHour_dates _ _ _ _ _).2.1, hs,
      (applyDaySuffix_dates _ _).2.1]
  · rw [(attachIst_fields _).1, (applyHour_dates _ _ _ _ _).1, hs,
      (applyDaySuffix_dates _ _).1]
  · intro hv
    rw [(attachIst_fields _).2.2.1, (applyHour_dates _ _ _ _ _).2.2, hs,
      applyDaySuffix_some_valid _ hv.1 hv.2]
  · intro hv
    rw [(attachIst_fields _).2.2.1, (applyHour_dates _ _ _ _ _).2.2, hs,
      applyDaySuffix_some_invalid _ hv]

/-- Oracle for the C6 witness: direct parse succeeds on the whole text. -/
def c6wOracle : DpOracle :=
  { parse := fun c =>
      if c = "22 si saat 10 da".data then some ⟨2025, 10, 6, 10, 0, 0, 0, some 180⟩ else none,
    search := fun _ => [] }

theorem C6_day_ordinal_witness :
    ∃ r, parse_datetime c6wOracle "22 si saat 10 da".data (some refIst) refIst (some 18) 0 =
        some r ∧ r.day = 22 ∧ r.month = 10 ∧ r.year = 2025 := by
  obtain ⟨r, hr, hm, hy, hv, _⟩ := C6_day_ordinal c6wOracle "22 si saat 10 da".data
    (some refIst) refIst (some 18) 0 22
    (.direct ⟨2025, 10, 6, 10, 0, 0, 0, some 180⟩) (by decide) (by decide)
  exact ⟨r, hr, by rw [hv (by decide)], by rw [hm]; rfl, by rw [hy]; rfl⟩

/-! ## Claim C7: rule-classifier totality -/

/-- C7 (amended): the rule classifier returns an action for every input
whose lower-cased trimmed form is non-empty (blank input yields no action,
`None`), and when no keyword category matches, the action has intent `note`
carrying the input text exactly as passed (the top-level `handle` trims
before delegating, so through the full pipeline the payload text is
trimmed).  The original claim — an action for *every* input, with the
*trimmed* raw text as payload — fails on blank input and on inputs with
surrounding whitespace (see the counterexample). -/
theorem C7_classifier_totality (o : DpOracle) (nl : PyDateTime) (text : Text) :
    (pyStrip (pyLower text) = [] → handle_with_rules o nl text = none)
    ∧ (pyStrip (pyLower text) ≠ [] → (handle_with_rules o nl text).isSome = true)
    ∧ (pyStrip (pyLower text) ≠ [] →
        lookupEventKeyword (pyStrip (pyLower text)) = none →
        containsAny (pyStrip (pyLower text)) reminderKeywords = false →
        containsAny (pyStrip (pyLower text)) listEventsKeywords = false →
        (containsAny (pyStrip (pyLower text)) ingestNounHints
          && containsAny (pyStrip (pyLower text)) ingestVerbHints) = false →
        containsAny (pyStrip (pyLower text)) summaryKeywords = false →
        containsAny (pyStrip (pyLower text)) adviseKeywords = false →
        containsAny (pyStrip (pyLower text)) listTasksKeywords = false →
        containsAny (pyStrip (pyLower text)) addHints = false →
        containsAny (pyStrip (pyLower text)) updateKeywords = false →
        containsAny (pyStrip (pyLower text)) deleteKeywords = false →
        containsAny (pyStrip (pyLower text)) completeKeywords = false →
        containsAny (pyStrip (pyLower text)) taskKeywords = false →
        handle_with_rules o nl text = some ⟨"note", [("text", .s text)]⟩) := by
  refine ⟨?_, ?_, ?_⟩
  · intro h
    simp only [handle_with_rules, h]
    rfl
  · intro h
    simp only [handle_with_rules, if_neg h, Option.isSome_some]
  · intro h h1 h2 h3 h4 h5 h6 h7 h8 h9 h10 h11 h12
    simp only [handle_with_rules, if_neg h, classifyRules, h1, h2, h3, h4, h5, h6, h7,
      h8, h9, h10, h11, h12, Bool.false_eq_true, if_false]

/-- Trivial extractor oracle for the C7 theorems. -/
def c7Oracle : DpOracle := ⟨fun _ => none, fun _ => []⟩

theorem C7_classifier_totality_witness :
    pyStrip (pyLower "merhaba".data) ≠ []
      ∧ handle_with_rules c7Oracle refIst "merhaba".data =
          some ⟨"note", [("text", .s "merhaba".data)]⟩ :=
  ⟨by decide,
    (C7_classifier_totality c7Oracle refIst "merhaba".data).2.2 (by decide) (by decide)
      (by decide) (by decide) (by decide) (by decide) (by decide) (by decide) (by decide)
      (by decide) (by decide) (by decide) (by decide)⟩

/-- C7 counterexample: on blank input the classifier returns `None`, not an
action; and on an unmatched input with surrounding whitespace the `note`
payload carries the raw text untrimmed, not the trimmed text the claim
requires. -/
theorem C7_counterexample :
    handle_with_rules c7Oracle refIst " ".data = none
      ∧ handle_with_rules c7Oracle refIst "  zzz  ".data =
          some ⟨"note", [("text", .s "  zzz  ".data)]⟩
      ∧ "  zzz  ".data ≠ pyStrip "  zzz  ".data :=
  ⟨by decide, by decide, by decide⟩

/-! ## Claim C8: add-hint tie-break -/

/-- C8: for every input whose lowered trimmed text matches no category
before the add-hint test but contains a generic add hint, the classifier
routes to `add_event` when the temporal extractor succeeds on the text, and
to `add_task` with no `due` payload field when the extractor finds no date
(extraction success does not depend on the default hour, so the task
builder's second extraction also fails). -/
theorem C8_add_hint_tiebreak (o : DpOracle) (nl : PyDateTime) (text : Text)
    (h0 : pyStrip (pyLower text) ≠ [])
    (h1 : lookupEventKeyword (pyStrip (pyLower text)) = none)
    (h2 : containsAny (pyStrip (pyLower text)) reminderKeywords = false)
    (h3 : containsAny (pyStrip (pyLower text)) listEventsKeywords = false)
    (h4 : (containsAny (pyStrip (pyLower text)) ingestNounHints
        && containsAny (pyStrip (pyLower text)) ingestVerbHints) = false)
    (h5 : containsAny (pyStrip (pyLower text)) summaryKeywords = false)
    (h6 : containsAny (pyStrip (pyLower text)) adviseKeywords = false)
    (h7 : containsAny (pyStrip (pyLower text)) listTasksKeywords = false)
    (h8 : containsAny (pyStrip (pyLower text)) addHints = true) :
    (∀ d, parse_datetime o text none nl (some 18) 0 = some d →
        ∃ a, handle_with_rules o nl text = some a ∧ a.intent = "add_event")
    ∧ (parse_datetime o text none nl (some 18) 0 = none →
        ∃ a, handle_with_rules o nl text = some a ∧ a.intent = "add_task"
          ∧ payloadGet a "due" = none) := by
  constructor
  · intro d hd
    refine ⟨buildEventAction o nl text 18 (some d), ?_, rfl⟩
    simp only [handle_with_rules, if_neg h0, classifyRules, h1, h2, h3, h4, h5, h6, h7,
      h8, Bool.false_eq_true, if_false, if_true, hd]
  · intro hnone
    have h17 : parse_datetime o text none nl (some 17) 0 = none := by
      have hs18 := parse_datetime_isSome o text none nl (some 18) 0
      have hs17 := parse_datetime_isSome o text none nl (some 17) 0
      rw [hnone] at hs18
      rw [← hs18] at hs17
      exact Option.not_isSome_iff_eq_none.mp (by rw [hs17]; simp)
    refine ⟨buildTaskAction o nl text, ?_, rfl, ?_⟩
    · simp only [handle_with_rules, if_neg h0, classifyRules, h1, h2, h3, h4, h5, h6,
        h7, h8, Bool.false_eq_true, if_false, if_true, hnone]
    · simp only [buildTaskAction, payloadGet, h17, List.append_nil]
      rfl

/-- Trivial extractor oracle for the C8 witness. -/
def c8Oracle : DpOracle := ⟨fun _ => none, fun _ => []⟩

theorem C8_add_hint_tiebreak_witness :
    parse_datetime c8Oracle "Yeni görev ekle".data none refIst (some 18) 0 = none
      ∧ ∃ a, handle_with_rules c8Oracle refIst "Yeni görev ekle".data = some a
          ∧ a.intent = "add_task" ∧ payloadGet a "due" = none :=
  ⟨by decide,
    (C8_add_hint_tiebreak c8Oracle refIst "Yeni görev ekle".data (by decide) (by decide)
        (by decide) (by decide) (by decide) (by decide) (by decide) (by decide)
        (by decide)).2 (by decide)⟩

/-! ## Claim C2: remote classifier error contract -/

/-- C2 (amended): on non-blank input, the remote-classifier adapter raises
its malformed-response `ValueError` exactly when the response content is
empty, fails to decode as JSON, decodes to a mapping whose intent field is
blank, or whose payload field is present, truthy and not a mapping (falsy
non-mapping payloads such as `[]` or `""` are coerced to the empty mapping
and accepted); a body decoding to a non-mapping JSON value instead raises
an attribute failure at `payload.get`; transient transport failures
(connection, rate limit, upstream status) propagate unchanged; and the
top-level `handle` absorbs every one of these failures, returning the rule
classifier's result on the stripped text.  The original claim's "exactly
when ... payload is not a mapping" is falsified by the truthy coercion and
the non-mapping body (see the counterexample). -/
theorem C2_remote_error_contract (decode : Text → Option Json)
    (client : Except TransportErr (Option Text)) (text : Text)
    (hne : pyStrip text ≠ []) :
    (∀ e, client = .error e →
        handle_with_llm decode client text = .error (.transient e))
    ∧ (∀ content?, client = .ok content? → content?.getD [] = [] →
        handle_with_llm decode client text = .error (.malformed "empty content"))
    ∧ (∀ c, client = .ok (some c) → c ≠ [] → decode c = none →
        handle_with_llm decode client text = .error (.malformed "not JSON"))
    ∧ (∀ c kvs, client = .ok (some c) → c ≠ [] → decode c = some (.obj kvs) →
        (llmIntentOf kvs = [] →
          handle_with_llm decode client text = .error (.malformed "no intent"))
        ∧ (llmIntentOf kvs ≠ [] →
            (∀ dkvs, llmDataOf kvs = .obj dkvs →
              handle_with_llm decode client text = .ok (some ⟨llmIntentOf kvs, dkvs⟩))
            ∧ ((∀ dkvs, llmDataOf kvs ≠ .obj dkvs) →
              handle_with_llm decode client text =
                .error (.malformed "payload not a mapping"))))
    ∧ (∀ c j, client = .ok (some c) → c ≠ [] → decode c = some j →
        (∀ kvs, j ≠ .obj kvs) →
        handle_with_llm decode client text = .error .attrError)
    ∧ (∀ (o : DpOracle) (nl : PyDateTime) (err : LlmFailure),
        handle_with_llm decode client (pyStrip text) = .error err →
        handle ⟨true, true⟩ decode client o nl text =
          some (.fromRules (handle_with_rules o nl (pyStrip text)))) := by
  refine ⟨?_, ?_, ?_, ?_, ?_, ?_⟩
  · intro e hc
    rw [hc]
    simp only [handle_with_llm, if_neg hne]
  · intro content? hc hcd
    rw [hc]
    simp only [handle_with_llm, if_neg hne, hcd, if_pos]
  · intro c hc hcne hdec
    rw [hc]
    simp only [handle_with_llm, if_neg hne, Option.getD_some, if_neg hcne, hdec]
  · intro c kvs hc hcne hdec
    constructor
    · intro hblank
      rw [hc]
      simp only [handle_with_llm, if_neg hne, Option.getD_some, if_neg hcne, hdec,
        hblank, if_pos]
    · intro hblank
      constructor
      · intro dkvs hdata
        rw [hc]
        simp only [handle_with_llm, if_neg hne, Option.getD_some, if_neg hcne, hdec,
          if_neg hblank, hdata]
      · intro hdata
        rw [hc]
        simp only [handle_with_llm, if_neg hne, Option.getD_some, if_neg hcne, hdec,
          if_neg hblank]
  · intro c j hc hcne hdec hnotobj
    rw [hc]
    simp only [handle_with_llm, if_neg hne, Option.getD_some, if_neg hcne, hdec]
  · intro o nl err herr
    simp only [handle, if_neg hne, Bool.and_self, if_pos, herr]

/-- Decoder for the C2 theorems: two fixed response bodies. -/
def c2decode : Text → Option Json := fun s =>
  if s = "j1".data then
    some (.obj [("intent".data, .str "x".data), ("payload".data, .arr [])])
  else if s = "j2".data then some (.num 42)
  else none

theorem C2_remote_error_contract_witness :
    handle_with_llm c2decode (.error .rateLimit) "merhaba dünya".data =
        .error (.transient .rateLimit)
      ∧ handle_with_llm c2decode (.ok none) "merhaba dünya".data =
        .error (.malformed "empty content") :=
  ⟨(C2_remote_error_contract c2decode (.error .rateLimit) "merhaba dünya".data
      (by decide)).1 .rateLimit rfl,
    (C2_remote_error_contract c2decode (.ok none) "merhaba dünya".data
      (by decide)).2.1 none rfl rfl⟩

/-- C2 counterexample: the response body `j1` decodes to
`\x7b"intent": "x", "payload": []\x7d`; its payload is not a mapping, so the
claim requires a malformed-response failure, yet the adapter returns an
action (the falsy `[]` is coerced by `or \x7b\x7d`).  The body `j2` decodes to
the JSON number `42` — valid JSON, none of the claim's four conditions —
yet the adapter raises an `AttributeError`-style failure rather than
either succeeding or raising the malformed `ValueError`. -/
theorem C2_counterexample :
    c2decode "j1".data =
        some (.obj [("intent".data, .str "x".data), ("payload".data, .arr [])])
      ∧ (∀ kvs, Json.arr [] ≠ Json.obj kvs)
      ∧ handle_with_llm c2decode (.ok (some "j1".data)) "t".data =
          .ok (some ⟨"x".data, []⟩)
      ∧ handle_with_llm c2decode (.ok (some "j2".data)) "t".data = .error .attrError :=
  ⟨rfl, fun _kvs h => Json.noConfusion h, rfl, rfl⟩

/-! ## Claim C1: the duplicate guard -/

theorem mem_eventWindow {nl : PyDateTime} {st : Store} {payload : DPayload}
    {e : StoredEvent} (he : e ∈ st.events)
    (hp : eventDupPred nl payload e = true) : e ∈ eventWindow nl st payload := by
  rw [eventDupPred, Bool.and_eq_true] at hp
  rw [eventWindow]
  cases hs : eventStartOf nl payload with
  | none => exact he
  | some s =>
      rw [List.mem_filter]
      refine ⟨he, ?_⟩
      have h2 := hp.2
      rw [hs] at h2
      cases hes : e.start? with
      | none => rw [hes] at h2; exact absurd h2 (by simp [timeClose])
      | some es =>
          rw [hes] at h2
          rw [timeClose, decide_eq_true_eq] at h2
          simp only [Bool.and_eq_true, decide_eq_true_eq]
          omega

theorem eventWindow_sub {nl : PyDateTime} {st : Store} {payload : DPayload}
    {e : StoredEvent} (he : e ∈ eventWindow nl st payload) : e ∈ st.events := by
  rw [eventWindow] at he
  cases hs : eventStartOf nl payload with
  | none => rw [hs] at he; exact he
  | some s =>
      rw [hs] at he
      exact (List.mem_filter.mp he).1

theorem pendingTasks_sub {st : Store} {e : StoredTask} (he : e ∈ pendingTasks st) :
    e ∈ st.tasks :=
  (List.mem_filter.mp he).1

/-- C1 (amended): the create handlers' duplicate guard.  For events: if some
existing record's title equals the request's normalised title (after
trimming and case-folding) and the two temporal values are close (both
absent, or both present with an absolute difference under one hour), the
handler returns that record's identifier with `duplicate = true`, inserts
nothing and schedules no reminder; otherwise it inserts a new record and
schedules reminders.  For tasks the same holds, except that — amending the
original claim — only *non-completed* existing records are considered: the
source queries `list_tasks(include_completed=False)`, so a completed task
never triggers the guard (see the counterexample). -/
theorem C1_duplicate_guard (nl nu : PyDateTime) (st : Store) (payload : DPayload) :
    ((∃ e ∈ st.events, eventDupPred nl payload e = true) →
        (handle_add_event nl nu st payload).duplicate = true
        ∧ (handle_add_event nl nu st payload).scheduled = false
        ∧ (handle_add_event nl nu st payload).store = st
        ∧ ∃ e ∈ st.events, eventDupPred nl payload e = true
            ∧ (handle_add_event nl nu st payload).eventId = e.id)
    ∧ ((∀ e ∈ st.events, ¬eventDupPred nl payload e = true) →
        (handle_add_event nl nu st payload).duplicate = false
        ∧ (handle_add_event nl nu st payload).scheduled = true
        ∧ (handle_add_event nl nu st payload).eventId = st.nextId
        ∧ (handle_add_event nl nu st payload).store.events =
            st.events ++ [⟨st.nextId, eventTitleOf payload,
              ensureUtc (some ((eventStartOf nl payload).getD nu))⟩])
    ∧ ((∃ e ∈ pendingTasks st, taskDupPred nl payload e = true) →
        (handle_add_task nl st payload).duplicate = true
        ∧ (handle_add_task nl st payload).store = st
        ∧ ∃ e ∈ pendingTasks st, taskDupPred nl payload e = true
            ∧ (handle_add_task nl st payload).taskId = e.id)
    ∧ ((∀ e ∈ pendingTasks st, ¬taskDupPred nl payload e = true) →
        (handle_add_task nl st payload).duplicate = false
        ∧ (handle_add_task nl st payload).taskId = st.nextId
        ∧ (handle_add_task nl st payload).store.tasks =
            st.tasks ++ [⟨st.nextId, taskTitleOf payload,
              ensureUtc (parseIso nl (getP payload "due")), .todo⟩]) := by
  refine ⟨?_, ?_, ?_, ?_⟩
  · rintro ⟨e, he, hp⟩
    obtain ⟨e', hfind⟩ : ∃ e',
        (eventWindow nl st payload).find? (eventDupPred nl payload) = some e' := by
      apply Option.isSome_iff_exists.mp
      rw [List.find?_isSome]
      exact ⟨e, mem_eventWindow he hp, hp⟩
    refine ⟨?_, ?_, ?_, e', eventWindow_sub (List.mem_of_find?_eq_some hfind),
        List.find?_some hfind, ?_⟩ <;>
      simp only [handle_add_event, hfind]
  · intro hall
    have hfind : (eventWindow nl st payload).find? (eventDupPred nl payload) = none :=
      List.find?_eq_none.mpr fun e he => hall e (eventWindow_sub he)
    refine ⟨?_, ?_, ?_, ?_⟩ <;> simp only [handle_add_event, hfind]
  · rintro ⟨e, he, hp⟩
    obtain ⟨e', hfind⟩ : ∃ e',
        (pendingTasks st).find? (taskDupPred nl payload) = some e' := by
      apply Option.isSome_iff_exists.mp
      rw [List.find?_isSome]
      exact ⟨e, he, hp⟩
    refine ⟨?_, ?_, e', List.mem_of_find?_eq_some hfind, List.find?_some hfind, ?_⟩ <;>
      simp only [handle_add_task, hfind]
  · intro hall
    have hfind : (pendingTasks st).find? (taskDupPred nl payload) = none :=
      List.find?_eq_none.mpr hall
    refine ⟨?_, ?_, ?_⟩ <;> simp only [handle_add_task, hfind]

/-- Store for the C1 witness: one event at `2025-10-03T11:00Z`. -/
def c1Store : Store :=
  ⟨[⟨1, "Fianca toplantısı".data, some ⟨2025, 10, 3, 11, 0, 0, 0, some 0⟩⟩], [], 2⟩

/-- Payload for the C1 witness: same folded title, start 15 minutes later. -/
def c1Payload : DPayload :=
  [("title", .s "fianca toplantısı".data), ("start", .s "2025-10-03T14:15:00+03:00".data)]

/-- UTC now used by the C1 witness. -/
def c1NowUtc : PyDateTime := ⟨2025, 10, 2, 6, 0, 0, 0, some 0⟩

theorem C1_duplicate_guard_witness :
    (handle_add_event refIst c1NowUtc c1Store c1Payload).duplicate = true
      ∧ (handle_add_event refIst c1NowUtc c1Store c1Payload).scheduled = false
      ∧ (handle_add_event refIst c1NowUtc c1Store c1Payload).store = c1Store := by
  obtain ⟨h1, h2, h3, _⟩ := (C1_duplicate_guard refIst c1NowUtc c1Store c1Payload).1
    ⟨⟨1, "Fianca toplantısı".data, some ⟨2025, 10, 3, 11, 0, 0, 0, some 0⟩⟩,
      by decide, by decide⟩
  exact ⟨h1, h2, h3⟩

/-- Store for the C1 counterexample: a single *completed* task `rapor`. -/
def c1cStore : Store := ⟨[], [⟨1, "rapor".data, none, .done⟩], 2⟩

/-- Payload for the C1 counterexample: the same title, no due date. -/
def c1cPayload : DPayload := [("title", .s "rapor".data)]

/-- C1 counterexample: the store holds an existing record (a completed
task) whose title equals the request's after trimming and case-folding,
and both temporal values are absent — so the claim requires
`duplicate = true`, the existing identifier, and no insertion.  The code
filters completed tasks out of the guard's query, returns
`duplicate = false` and inserts a second record. -/
theorem C1_counterexample :
    titleKeyEq "rapor".data (pyLower (taskTitleOf c1cPayload)) = true
      ∧ parseIso refIst (getP c1cPayload "due") = none
      ∧ c1cStore.tasks = [⟨1, "rapor".data, none, .done⟩]
      ∧ (handle_add_task refIst c1cStore c1cPayload).duplicate = false
      ∧ (handle_add_task refIst c1cStore c1cPayload).store.tasks.length = 2 :=
  ⟨by decide, rfl, rfl, by decide, by decide⟩

/-! ## Claim C10: dispatcher ISO parsing -/

theorem digit_not_space {c : Char} (h : isDigitCh c = true) : pyIsSpace c = false := by
  by_contra hs
  rw [Bool.not_eq_false] at hs
  simp only [pyIsSpace, Bool.or_eq_true, decide_eq_true_eq] at hs
  rcases hs with ((((h' | h') | h') | h') | h') | h' <;>
    (subst h'; exact absurd h (by decide))

theorem digit_ne_lbrace {c : Char} (h : isDigitCh c = true) : c ≠ lbrace := by
  intro e
  subst e
  exact absurd h (by decide)

theorem digit_ne_dash {c : Char} (h : isDigitCh c = true) : ¬(c = '-') := by
  intro e
  subst e
  exact absurd h (by decide)

theorem mem_natDecAux_digit : ∀ (fuel n : Nat) (c : Char), c ∈ natDecAux fuel n →
    isDigitCh c = true
  | 0, _, c, h => by simp [natDecAux] at h
  | fuel + 1, n, c, h => by
      rw [natDecAux] at h
      by_cases hn : n < 10
      · rw [if_pos hn] at h
        rw [List.mem_singleton] at h
        subst h
        interval_cases n <;> decide
      · rw [if_neg hn] at h
        rcases List.mem_append.mp h with h' | h'
        · exact mem_natDecAux_digit fuel (n / 10) c h'
        · rw [List.mem_singleton] at h'
          subst h'
          have : n % 10 < 10 := Nat.mod_lt _ (by norm_num)
          interval_cases hm : (n % 10) <;> decide

theorem mem_intDec {n : Int} {c : Char} (h : c ∈ intDec n) :
    isDigitCh c = true ∨ c = '-' := by
  rw [intDec] at h
  by_cases hn : n < 0
  · rw [if_pos hn] at h
    rw [List.mem_cons] at h
    rcases h with h | h
    · exact Or.inr h
    · exact Or.inl (mem_natDecAux_digit _ _ _ h)
  · rw [if_neg hn] at h
    exact Or.inl (mem_natDecAux_digit _ _ _ h)

theorem relSubAux_no_lbrace (nl : PyDateTime) : ∀ (fuel : Nat) (s : Text),
    lbrace ∉ s → relSubAux nl fuel s = s
  | 0, [], _ => rfl
  | 0, _ :: _, _ => rfl
  | _ + 1, [], _ => rfl
  | fuel + 1, c :: rest, h => by
      have hc : ¬(c = lbrace) := fun e => h (e ▸ List.mem_cons_self c rest)
      have hr : lbrace ∉ rest := fun m => h (List.mem_cons_of_mem _ m)
      rw [relSubAux, relTokenAt, if_neg hc]
      rw [relSubAux_no_lbrace nl fuel rest hr]

theorem relSub_no_lbrace {nl : PyDateTime} {s : Text} (h : lbrace ∉ s) :
    relSub nl s = s :=
  relSubAux_no_lbrace nl s.length s h

theorem head?_mem : ∀ {l : Text} {c : Char}, l.head? = some c → c ∈ l
  | [], _, h => by simp at h
  | a :: _, c, h => by
      simp at h
      exact h ▸ List.mem_cons_self a _

theorem getLast?_mem : ∀ {l : Text} {c : Char}, l.getLast? = some c → c ∈ l
  | [], _, h => by simp at h
  | [a], c, h => by
      simp at h
      exact h ▸ List.mem_cons_self a _
  | a :: b :: rest, c, h => by
      rw [List.getLast?_cons_cons] at h
      exact List.mem_cons_of_mem _ (getLast?_mem h)

theorem pyStrip_of_no_space {s : Text} (h : ∀ c ∈ s, pyIsSpace c = false) :
    pyStrip s = s :=
  pyStrip_eq_self (fun c hc => h c (head?_mem hc)) (fun c hc => h c (getLast?_mem hc))

theorem fromIsoDate_all_digits : ∀ (s : Text), (∀ c ∈ s, isDigitCh c = true) →
    fromIsoDate s = none := by
  intro s h
  rcases s with _ | ⟨a, s⟩; · rfl
  rcases s with _ | ⟨b, s⟩; · rfl
  rcases s with _ | ⟨c, s⟩; · rfl
  rcases s with _ | ⟨d, s⟩; · rfl
  rcases s with _ | ⟨s1, s⟩; · rfl
  rcases s with _ | ⟨e, s⟩; · rfl
  rcases s with _ | ⟨f, s⟩; · rfl
  rcases s with _ | ⟨s2, s⟩; · rfl
  rcases s with _ | ⟨g, s⟩; · rfl
  rcases s with _ | ⟨k, s⟩; · rfl
  rw [fromIsoDate, if_neg]
  intro hc
  simp only [Bool.and_eq_true, decide_eq_true_eq] at hc
  exact digit_ne_dash (h s1 (by simp)) hc.1.1.1.1.1.2

theorem fromIso_all_digits {s : Text} (h : ∀ c ∈ s, isDigitCh c = true) :
    fromIso s = none := by
  rw [fromIso, fromIsoDate_all_digits s h]

theorem natDec_ne_nil (n : Nat) : natDec n ≠ [] := by
  rw [natDec, natDecAux]
  split <;> simp

theorem parseIso_falsy {nl : PyDateTime} {v : PyVal} (hv : pyTruthy v = false) :
    parseIso nl (some v) = none := by
  simp [parseIso, hv]

theorem parseIso_text_shape {nl : PyDateTime} {v : PyVal} (hT : pyTruthy v = true)
    (hnd : ∀ d, v ≠ .dt d) :
    parseIso nl (some v) =
      (if pyStrip (pyStrOf v) = [] then none
       else
         match fromIso (relSub nl (pyStrip (pyStrOf v))) with
         | none => none
         | some parsed =>
             some (if parsed.tz.isSome then parsed else { parsed with tz := some 0 })) := by
  cases v with
  | null => exact absurd hT (by decide)
  | dt d => exact absurd rfl (hnd d)
  | b x => simp only [parseIso, hT, Bool.not_true, Bool.false_eq_true, if_false]
  | n x => simp only [parseIso, hT, Bool.not_true, Bool.false_eq_true, if_false]
  | s x => simp only [parseIso, hT, Bool.not_true, Bool.false_eq_true, if_false]

theorem fromIsoDate_head_not_digit : ∀ (s : Text) (a : Char), isDigitCh a = false →
    fromIsoDate (a :: s) = none := by
  intro s a ha
  rcases s with _ | ⟨b, s⟩; · rfl
  rcases s with _ | ⟨c, s⟩; · rfl
  rcases s with _ | ⟨d, s⟩; · rfl
  rcases s with _ | ⟨s1, s⟩; · rfl
  rcases s with _ | ⟨e, s⟩; · rfl
  rcases s with _ | ⟨f, s⟩; · rfl
  rcases s with _ | ⟨s2, s⟩; · rfl
  rcases s with _ | ⟨g, s⟩; · rfl
  rcases s with _ | ⟨k, s⟩; · rfl
  rw [fromIsoDate, if_neg]
  intro hc
  simp only [Bool.and_eq_true] at hc
  rw [hc.1.1.1.1.1.1.1.1.1] at ha
  exact absurd ha (by simp)

/-- C10 (amended): the dispatcher's ISO parser is total and never raises:
it returns absent for an absent or falsy (empty) value, for a string that
is blank after stripping, for a non-string/non-datetime value (None,
booleans, integers), and for a string that is still not ISO-formatted
*after* the recognised relative-date placeholders (`\x7btoday\x7d`,
`\x7byarın\x7d`, ...) have been substituted — the substitution step amends
the original claim, which a placeholder string falsifies (see the
counterexample).  A malformed start therefore silently makes `add_event`
fall back to the current time.  A naive input (given datetime or parsed
string) is assigned UTC, which differs from the configured local zone
(UTC+3). -/
theorem C10_iso_parsing (nl : PyDateTime) :
    (parseIso nl none = none)
    ∧ (∀ v, pyTruthy v = false → parseIso nl (some v) = none)
    ∧ (∀ s, pyStrip s = [] → parseIso nl (some (.s s)) = none)
    ∧ (∀ s, fromIso (relSub nl (pyStrip s)) = none → parseIso nl (some (.s s)) = none)
    ∧ (∀ n : Int, parseIso nl (some (.n n)) = none)
    ∧ (∀ b : Bool, parseIso nl (some (.b b)) = none)
    ∧ (parseIso nl (some .null) = none)
    ∧ (∀ d, d.tz = none → parseIso nl (some (.dt d)) = some { d with tz := some 0 })
    ∧ (∀ s p, fromIso (relSub nl (pyStrip s)) = some p → p.tz = none →
        parseIso nl (some (.s s)) = some { p with tz := some 0 })
    ∧ ((0 : Int) ≠ istOffset)
    ∧ (∀ nu st payload, eventStartOf nl payload = none →
        (∀ e ∈ st.events, ¬eventDupPred nl payload e = true) →
        (handle_add_event nl nu st payload).store.events =
          st.events ++ [⟨st.nextId, eventTitleOf payload, ensureUtc (some nu)⟩]) := by
  refine ⟨rfl, ?_, ?_, ?_, ?_, ?_, rfl, ?_, ?_, by decide, ?_⟩
  · intro v hv
    exact parseIso_falsy hv
  · intro s hs
    by_cases he : s = []
    · subst he; rfl
    · have hT : pyTruthy (.s s) = true := by simp [pyTruthy, he]
      rw [parseIso_text_shape hT (fun d h => PyVal.noConfusion h)]
      rw [show pyStrOf (.s s) = s from rfl, if_pos hs]
  · intro s hiso
    by_cases he : s = []
    · subst he; rfl
    · have hT : pyTruthy (.s s) = true := by simp [pyTruthy, he]
      rw [parseIso_text_shape hT (fun d h => PyVal.noConfusion h)]
      rw [show pyStrOf (.s s) = s from rfl]
      by_cases hst : pyStrip s = []
      · rw [if_pos hst]
      · rw [if_neg hst, hiso]
  · intro n
    by_cases hz : n = 0
    · subst hz; rfl
    · have hT : pyTruthy (.n n) = true := by simp [pyTruthy, hz]
      rw [parseIso_text_shape hT (fun d h => PyVal.noConfusion h)]
      rw [show pyStrOf (.n n) = intDec n from rfl]
      have hstrip : pyStrip (intDec n) = intDec n :=
        pyStrip_of_no_space fun c hc => by
          rcases mem_intDec hc with h | h
          · exact digit_not_space h
          · subst h; decide
      have hbrace : lbrace ∉ intDec n := fun hm => by
        rcases mem_intDec hm with h | h
        · exact digit_ne_lbrace h rfl
        · exact absurd h (by decide)
      have hne : intDec n ≠ [] := by
        rw [intDec]
        split
        · simp
        · exact natDec_ne_nil _
      rw [hstrip, if_neg hne, relSub_no_lbrace hbrace]
      have hiso : fromIso (intDec n) = none := by
        rw [intDec]
        by_cases hn : n < 0
        · rw [if_pos hn, fromIso]
          rw [fromIsoDate_head_not_digit _ '-' (by decide)]
        · rw [if_neg hn]
          exact fromIso_all_digits fun c hc => mem_natDecAux_digit _ _ _ hc
      rw [hiso]
  · intro b
    cases b <;> rfl
  · intro d hd
    have hT : pyTruthy (.dt d) = true := rfl
    simp only [parseIso, hT, Bool.not_true, Bool.false_eq_true, if_false, hd,
      Option.isSome_none, if_neg]
  · intro s p hp htz
    have hsne : pyStrip s ≠ [] := by
      intro e
      rw [e] at hp
      exact Option.noConfusion (hp ▸ rfl : (none : Option PyDateTime) = some p)
    have he : s ≠ [] := by
      intro e
      exact hsne (by rw [e]; rfl)
    have hT : pyTruthy (.s s) = true := by simp [pyTruthy, he]
    rw [parseIso_text_shape hT (fun d h => PyVal.noConfusion h)]
    rw [show pyStrOf (.s s) = s from rfl, if_neg hsne, hp]
    have hps : p.tz.isSome = false := by rw [htz]; rfl
    simp only [hps, Bool.false_eq_true, if_false]
  · intro nu st payload hstart hall
    have hfind : (eventWindow nl st payload).find? (eventDupPred nl payload) = none :=
      List.find?_eq_none.mpr fun e he => hall e (eventWindow_sub he)
    simp only [handle_add_event, hfind, hstart, Option.getD_none]

theorem C10_iso_parsing_witness :
    parseIso refIst (some (.s "not a date".data)) = none
      ∧ parseIso refIst (some (.n 20251002)) = none
      ∧ parseIso refIst (some (.dt ⟨2025, 10, 2, 14, 0, 0, 0, none⟩)) =
          some ⟨2025, 10, 2, 14, 0, 0, 0, some 0⟩ :=
  ⟨(C10_iso_parsing refIst).2.2.2.1 "not a date".data (by decide),
    (C10_iso_parsing refIst).2.2.2.2.1 20251002,
    (C10_iso_parsing refIst).2.2.2.2.2.2.2.1 ⟨2025, 10, 2, 14, 0, 0, 0, none⟩ rfl⟩

/-- C10 counterexample: the string `\x7btoday\x7d` is not ISO-formatted
(`fromisoformat` rejects it), so the claim requires the parser to return
absent; but the dispatcher first substitutes the relative-date placeholder
with the current local date, and the parser returns that date as a UTC
midnight instant. -/
theorem C10_counterexample :
    fromIso "\x7btoday\x7d".data = none
      ∧ parseIso refIst (some (.s "\x7btoday\x7d".data)) =
          some ⟨2025, 10, 2, 0, 0, 0, 0, some 0⟩ :=
  ⟨rfl, by decide⟩

end Mira
